import Mathlib

/-!
# Verification of the GlobalStockPulse technical-indicator and comparison core

Shallow embedding of `src/utils/technical_analysis.py` (class `TechnicalAnalyzer`)
and `src/components/comparison.py` (class `StockComparison`) of the
GLOBALSTOCKPULSE repository, together with theorems settling the frozen claims
C1..C10 about that code.

Conventions of the embedding:

* Python floats are modelled by the type `F` below: a finite value is `F.num q`
  with `q : ℚ`, and the IEEE-754 special values are `F.pinf`, `F.ninf` and
  `F.nan`.  The arithmetic operations `fadd`, `fsub`, `fmul`, `fdiv` and the
  comparisons `flt`, `fgt` follow IEEE semantics on these constructors
  (`0/0 = NaN`, `q/0 = ±∞` for `q ≠ 0` — the zero divisors produced by the
  source arise as differences `x - x`, i.e. IEEE `+0` — comparisons with NaN
  are false, `NaN` propagates through arithmetic).  Finite arithmetic is exact
  (rationals) rather than rounded; no claim below depends on rounding.
* A pandas `Series` of floats is a `List ℚ` when every entry is finite and a
  `List F` otherwise.  `Series.rolling(window=w)` with the default
  `min_periods = w` yields NaN at position `i` whenever `i + 1 < w` or some
  entry of the window is NaN; the rolling helpers below reproduce exactly that.
* `sqrt` (used by `rolling.std` and by `252 ** 0.5`) is irrational on ℚ, so the
  functions that need it are parametrised by an arbitrary `sq : ℚ → ℚ` standing
  for the float square root; no claim below constrains its values.
-/

/-- Model of an IEEE-754 double as used by the source: a finite rational,
`+∞`, `-∞` or `NaN`. -/
inductive F where
  | num (q : ℚ)
  | pinf
  | ninf
  | nan
deriving DecidableEq

/-- IEEE negation. -/
def fneg : F → F
  | .num a => .num (-a)
  | .pinf => .ninf
  | .ninf => .pinf
  | .nan => .nan

/-- IEEE addition (`∞ + -∞ = NaN`, NaN propagates). -/
def fadd : F → F → F
  | .num a, .num b => .num (a + b)
  | .nan, _ => .nan
  | _, .nan => .nan
  | .pinf, .ninf => .nan
  | .ninf, .pinf => .nan
  | .pinf, _ => .pinf
  | _, .pinf => .pinf
  | .ninf, _ => .ninf
  | _, .ninf => .ninf

/-- IEEE subtraction. -/
def fsub (a b : F) : F := fadd a (fneg b)

/-- IEEE multiplication (`0 · ∞ = NaN`, NaN propagates). -/
def fmul : F → F → F
  | .num a, .num b => .num (a * b)
  | .nan, _ => .nan
  | _, .nan => .nan
  | .num a, .pinf => if a = 0 then .nan else if 0 < a then .pinf else .ninf
  | .num a, .ninf => if a = 0 then .nan else if 0 < a then .ninf else .pinf
  | .pinf, .num b => if b = 0 then .nan else if 0 < b then .pinf else .ninf
  | .ninf, .num b => if b = 0 then .nan else if 0 < b then .ninf else .pinf
  | .pinf, .pinf => .pinf
  | .pinf, .ninf => .ninf
  | .ninf, .pinf => .ninf
  | .ninf, .ninf => .pinf

/-- IEEE division.  The zero denominators produced by the embedded code are
exact differences `x - x`, i.e. IEEE `+0`, so `a / 0` is `NaN` for `a = 0` and
`±∞` following the sign of `a` otherwise. -/
def fdiv : F → F → F
  | .nan, _ => .nan
  | _, .nan => .nan
  | .num a, .num b =>
      if b = 0 then (if a = 0 then .nan else if 0 < a then .pinf else .ninf)
      else .num (a / b)
  | .num _, .pinf => .num 0
  | .num _, .ninf => .num 0
  | .pinf, .num b => if 0 ≤ b then .pinf else .ninf
  | .ninf, .num b => if 0 ≤ b then .ninf else .pinf
  | .pinf, .pinf => .nan
  | .pinf, .ninf => .nan
  | .ninf, .pinf => .nan
  | .ninf, .ninf => .nan

/-- IEEE absolute value. -/
def fabs : F → F
  | .num a => .num |a|
  | .pinf => .pinf
  | .ninf => .pinf
  | .nan => .nan

/-- IEEE strict less-than: any comparison involving NaN is false. -/
def flt : F → F → Bool
  | .num a, .num b => decide (a < b)
  | .nan, _ => false
  | _, .nan => false
  | .pinf, _ => false
  | _, .pinf => true
  | _, .ninf => false
  | .ninf, _ => true

/-- IEEE strict greater-than. -/
def fgt (a b : F) : Bool := flt b a

/-- Is this value a finite number? -/
def F.isFinite : F → Bool
  | .num _ => true
  | _ => false

/-! ## Rolling-window helpers (pandas `Series.rolling`) -/

/-- The trailing window of size `w` ending at position `i` of `xs`
(only meaningful when `i + 1 ≥ w` and `i < xs.length`). -/
def windowAt (w i : ℕ) (xs : List ℚ) : List ℚ := (xs.take (i + 1)).drop (i + 1 - w)

/-- `xs.rolling(window=w).mean()` for a series of finite floats: NaN while the
window is not yet full, else the arithmetic mean of the trailing `w` samples. -/
def rollingMeanQ (w : ℕ) (xs : List ℚ) : List F :=
  (List.range xs.length).map fun i =>
    if i + 1 < w then F.nan else F.num ((windowAt w i xs).sum / w)

/-- `xs.rolling(window=w).min()` for a series of finite floats. -/
def rollingMinQ (w : ℕ) (xs : List ℚ) : List F :=
  (List.range xs.length).map fun i =>
    if i + 1 < w then F.nan else
      match windowAt w i xs with
      | [] => F.nan
      | y :: ys => F.num (ys.foldl min y)

/-- `xs.rolling(window=w).max()` for a series of finite floats. -/
def rollingMaxQ (w : ℕ) (xs : List ℚ) : List F :=
  (List.range xs.length).map fun i =>
    if i + 1 < w then F.nan else
      match windowAt w i xs with
      | [] => F.nan
      | y :: ys => F.num (ys.foldl max y)

/-- Rolling mean of a float series that may already contain NaN/∞: with the
default `min_periods = w`, a NaN inside the window makes the output NaN (fewer
than `w` valid observations), which is exactly what the NaN-propagating `fadd`
fold produces; infinite entries give an infinite mean, as in pandas. -/
def rollingMeanF (w : ℕ) (xs : List F) : List F :=
  (List.range xs.length).map fun i =>
    if i + 1 < w then F.nan else
      fdiv (((xs.take (i + 1)).drop (i + 1 - w)).foldl fadd (F.num 0)) (F.num w)

/-- `xs.rolling(window=w).std()` (pandas default `ddof = 1`, sample standard
deviation), with `sq` standing for the float square root. -/
def rollingStd (sq : ℚ → ℚ) (w : ℕ) (xs : List ℚ) : List F :=
  (List.range xs.length).map fun i =>
    if i + 1 < w then F.nan else
      F.num (sq ((((windowAt w i xs).map
        (fun x => (x - (windowAt w i xs).sum / w) ^ 2)).sum) / (w - 1 : ℕ)))

/-! ## Indicator library (`TechnicalAnalyzer`) -/

/-- `calculate_sma(data, window) = data.rolling(window=window).mean()`. -/
def calculate_sma (w : ℕ) (data : List ℚ) : List F := rollingMeanQ w data

/-- Running state of `Series.ewm(span=w).mean()`: pandas' default
`adjust=True` maintains a numerator `x_i + c·n_{i-1}` and a denominator
`1 + c·d_{i-1}` with decay `c = 1 - α`, emitting their quotient. -/
def ewmAux (c : ℚ) (n d : ℚ) : List ℚ → List ℚ
  | [] => []
  | x :: xs =>
    let n' := x + c * n
    let d' := 1 + c * d
    n' / d' :: ewmAux c n' d' xs

/-- `calculate_ema(data, window) = data.ewm(span=window).mean()`: pandas'
exponentially weighted mean with `α = 2/(window+1)` and the default
`adjust=True` (weights `(1-α)^j` over the whole history, normalised by their
sum), defined for `window ≥ 1`. -/
def calculate_ema (w : ℕ) (data : List ℚ) : List ℚ :=
  ewmAux (1 - 2 / (w + 1 : ℚ)) 0 0 data

/-- The per-position gain series of `calculate_rsi`:
`delta.where(delta > 0, 0)` where `delta = data.diff()`.  The first delta is
NaN, whose `where`-condition is false, so position 0 contributes `0`. -/
def gains : List ℚ → List ℚ
  | [] => []
  | x :: xs => 0 :: List.zipWith (fun cur prev => if 0 < cur - prev then cur - prev else 0)
      xs (x :: xs)

/-- The per-position loss series of `calculate_rsi`:
`(-delta.where(delta < 0, 0))`, with the NaN first delta contributing `0`. -/
def losses : List ℚ → List ℚ
  | [] => []
  | x :: xs => 0 :: List.zipWith (fun cur prev => if cur - prev < 0 then -(cur - prev) else 0)
      xs (x :: xs)

/-- `calculate_rsi(data, window)`:
`rs = gain.rolling(w).mean() / loss.rolling(w).mean()` and
`100 - 100/(1 + rs)`, evaluated with IEEE float semantics. -/
def calculate_rsi (w : ℕ) (data : List ℚ) : List F :=
  List.zipWith
    (fun g l =>
      fsub (F.num 100) (fdiv (F.num 100) (fadd (F.num 1) (fdiv g l))))
    (rollingMeanQ w (gains data)) (rollingMeanQ w (losses data))

/-- `calculate_macd(data, fast, slow, signal)`: returns
`(macd, macd_signal, macd_histogram)`. -/
def calculate_macd (fast slow signal : ℕ) (data : List ℚ) : List ℚ × List ℚ × List ℚ :=
  let macd := List.zipWith (· - ·) (calculate_ema fast data) (calculate_ema slow data)
  let macdSignal := calculate_ema signal macd
  let macdHistogram := List.zipWith (· - ·) macd macdSignal
  (macd, macdSignal, macdHistogram)

/-- `calculate_bollinger_bands(data, window, num_std)`: returns
`(upper_band, sma, lower_band)` with `upper/lower = sma ± num_std · std`. -/
def calculate_bollinger_bands (sq : ℚ → ℚ) (w : ℕ) (numStd : ℚ) (data : List ℚ) :
    List F × List F × List F :=
  let sma := calculate_sma w data
  let std := rollingStd sq w data
  let upper := List.zipWith (fun s d => fadd s (fmul d (F.num numStd))) sma std
  let lower := List.zipWith (fun s d => fsub s (fmul d (F.num numStd))) sma std
  (upper, sma, lower)

/-- `calculate_stochastic(high, low, close, k_window, d_window)`: returns
`(k_percent, d_percent)` with
`%K = 100 · (close - min(low, k_window)) / (max(high, k_window) - min(low, k_window))`
and `%D = %K.rolling(d_window).mean()`; no zero-range fallback exists in the
source, the IEEE division result propagates. -/
def calculate_stochastic (kw dw : ℕ) (high low close : List ℚ) : List F × List F :=
  let lowestLow := rollingMinQ kw low
  let highestHigh := rollingMaxQ kw high
  let k := List.zipWith
    (fun c p => fmul (F.num 100) (fdiv (fsub (F.num c) p.1) (fsub p.2 p.1)))
    close (lowestLow.zip highestHigh)
  (k, rollingMeanF dw k)

/-- `calculate_williams_r(high, low, close, window)`:
`-100 · (max(high,w) - close) / (max(high,w) - min(low,w))`; again no
zero-range fallback, the IEEE division result propagates. -/
def calculate_williams_r (w : ℕ) (high low close : List ℚ) : List F :=
  let highestHigh := rollingMaxQ w high
  let lowestLow := rollingMinQ w low
  List.zipWith
    (fun c p => fmul (F.num (-100)) (fdiv (fsub p.2 (F.num c)) (fsub p.2 p.1)))
    close (lowestLow.zip highestHigh)

/-- True range series of `calculate_adx`:
`max(high - low, |high - prevClose|, |low - prevClose|)` rowwise with pandas'
`DataFrame.max(axis=1)` skipping the NaN entries at position 0 (where
`close.shift()` is NaN), leaving `high - low` there. -/
def trList (high low close : List ℚ) : List ℚ :=
  match high, low with
  | h0 :: _, l0 :: _ =>
      (h0 - l0) ::
        List.zipWith (fun hl cp => max (hl.1 - hl.2) (max |hl.1 - cp| |hl.2 - cp|))
          ((high.tail).zip (low.tail)) close
  | _, _ => []

/-- `+DM` series of `calculate_adx`: raw `high.diff()` zeroed unless it
exceeds the raw `-DM` and is positive; position 0 (NaN diff) becomes 0. -/
def dmPlusList (high low : List ℚ) : List ℚ :=
  match high, low with
  | _ :: _, _ :: _ =>
      0 ::
        List.zipWith
          (fun hp lp =>
            let rp := hp.1 - hp.2
            let rm := lp.2 - lp.1
            if rm < rp ∧ 0 < rp then rp else 0)
          ((high.tail).zip high) ((low.tail).zip low)
  | _, _ => []

/-- `-DM` series of `calculate_adx`.  The source first overwrites `dm_plus`
and only then filters `dm_minus`, so the `-DM` condition compares against the
already-zeroed `+DM` value. -/
def dmMinusList (high low : List ℚ) : List ℚ :=
  match high, low with
  | _ :: _, _ :: _ =>
      0 ::
        List.zipWith
          (fun hp lp =>
            let rp := hp.1 - hp.2
            let rm := lp.2 - lp.1
            let dp := if rm < rp ∧ 0 < rp then rp else 0
            if dp < rm ∧ 0 < rm then rm else 0)
          ((high.tail).zip high) ((low.tail).zip low)
  | _, _ => []

/-- `calculate_adx(high, low, close, window)`: smooths TR and ±DM by trailing
means, forms `DI± = 100 · DM±/TR`, `DX = 100·|DI+ - DI-|/(DI+ + DI-)` and
returns the trailing mean of DX. -/
def calculate_adx (w : ℕ) (high low close : List ℚ) : List F :=
  let trS := rollingMeanQ w (trList high low close)
  let dpS := rollingMeanQ w (dmPlusList high low)
  let dmS := rollingMeanQ w (dmMinusList high low)
  let diPlus := List.zipWith (fun d t => fmul (F.num 100) (fdiv d t)) dpS trS
  let diMinus := List.zipWith (fun d t => fmul (F.num 100) (fdiv d t)) dmS trS
  let dx := List.zipWith
    (fun p m => fdiv (fmul (F.num 100) (fabs (fsub p m))) (fadd p m)) diPlus diMinus
  rollingMeanF w dx

/-- One OHLCV row as consumed by the embedded functions.  The source also
carries an `open` column, but no embedded computation ever reads it, so it is
omitted from the model. -/
structure Bar where
  high : ℚ
  low : ℚ
  close : ℚ
  volume : ℚ
deriving DecidableEq

/-- `calculate_support_resistance(data, window)`: returns
`(support, resistance) = (low.rolling(w).min(), high.rolling(w).max())`. -/
def calculate_support_resistance (w : ℕ) (data : List Bar) : List F × List F :=
  (rollingMinQ w (data.map Bar.low), rollingMaxQ w (data.map Bar.high))

/-! ## Indicator panel builder (`calculate_all_indicators`) -/

/-- The indicator columns of the output panel, as an association list from
column name to series.  The raw OHLCV columns stay in `bars`. -/
structure Panel where
  bars : List Bar
  cols : List (String × List F)
deriving DecidableEq

/-- The call sites inside `calculate_all_indicators` at which a Python
exception could be raised (one per indicator computation; calls returning
several columns, like `calculate_macd`, are single sites). -/
inductive IndId where
  | sma20
  | sma50
  | ema12
  | ema26
  | rsi
  | macd
  | bb
  | stoch
  | williams
  | adx
  | suppRes
deriving DecidableEq

/-- Fault-injection wrapper: `fail i = true` models the computation at call
site `i` raising an exception; otherwise the computed value is returned. -/
def chk {α : Type} (fail : IndId → Bool) (i : IndId) (v : α) : Except Unit α :=
  if fail i then .error () else .ok v

/-- The body of the single `try:` block of `calculate_all_indicators`,
computing every indicator in source order; the first raising call site aborts
the whole body. -/
def calcAllE (sq : ℚ → ℚ) (fail : IndId → Bool) (data : List Bar) : Except Unit Panel :=
  let closes := data.map Bar.close
  let highs := data.map Bar.high
  let lows := data.map Bar.low
  match chk fail .sma20 (calculate_sma 20 closes) with
  | .error e => .error e
  | .ok s20 =>
  match chk fail .sma50 (calculate_sma 50 closes) with
  | .error e => .error e
  | .ok s50 =>
  match chk fail .ema12 (calculate_ema 12 closes) with
  | .error e => .error e
  | .ok e12 =>
  match chk fail .ema26 (calculate_ema 26 closes) with
  | .error e => .error e
  | .ok e26 =>
  match chk fail .rsi (calculate_rsi 14 closes) with
  | .error e => .error e
  | .ok rsiC =>
  match chk fail .macd (calculate_macd 12 26 9 closes) with
  | .error e => .error e
  | .ok m =>
  match chk fail .bb (calculate_bollinger_bands sq 20 2 closes) with
  | .error e => .error e
  | .ok bb =>
  match chk fail .stoch (calculate_stochastic 14 3 highs lows closes) with
  | .error e => .error e
  | .ok st =>
  match chk fail .williams (calculate_williams_r 14 highs lows closes) with
  | .error e => .error e
  | .ok wr =>
  match chk fail .adx (calculate_adx 14 highs lows closes) with
  | .error e => .error e
  | .ok ax =>
  match chk fail .suppRes (calculate_support_resistance 20 data) with
  | .error e => .error e
  | .ok sr =>
  .ok
    { bars := data
      cols :=
        [("sma_20", s20), ("sma_50", s50),
         ("ema_12", e12.map F.num), ("ema_26", e26.map F.num),
         ("rsi", rsiC),
         ("macd", m.1.map F.num), ("macd_signal", m.2.1.map F.num),
         ("macd_histogram", m.2.2.map F.num),
         ("bb_upper", bb.1), ("bb_middle", bb.2.1), ("bb_lower", bb.2.2),
         ("stoch_k", st.1), ("stoch_d", st.2),
         ("williams_r", wr),
         ("adx", ax),
         ("support", sr.1), ("resistance", sr.2)] }

/-- `calculate_all_indicators(data)`: the whole computation sits in ONE
`try/except`; any raising indicator makes the function return the raw input
`data` (no indicator columns at all), otherwise the panel carries all 17
indicator columns. -/
def calculate_all_indicators (sq : ℚ → ℚ) (fail : IndId → Bool) (data : List Bar) : Panel :=
  match calcAllE sq fail data with
  | .ok p => p
  | .error _ => { bars := data, cols := [] }

/-- The 17 indicator column names added by a successful
`calculate_all_indicators` run. -/
def indicatorColNames : List String :=
  ["sma_20", "sma_50", "ema_12", "ema_26", "rsi", "macd", "macd_signal",
   "macd_histogram", "bb_upper", "bb_middle", "bb_lower", "stoch_k", "stoch_d",
   "williams_r", "adx", "support", "resistance"]

/-! ## Summary extractor (`get_technical_summary`) -/

/-- The eight-entry summary dict built by `get_technical_summary` on its
success path. -/
structure TechSummary where
  rsi_current : F
  rsi_signal : String
  macd_signal : String
  trend_signal : String
  volume_signal : String
  bollinger_position : String
  momentum_signal : String
  overall_signal : String
deriving DecidableEq

/-- `latest.get(name, dflt)` for an indicator column: the default applies only
when the column is absent from the panel; a present column contributes its
last value (which may be NaN). -/
def getColLast (p : Panel) (name : String) (dflt : F) : F :=
  match p.cols.lookup name with
  | some col => col.getLastD dflt
  | none => dflt

/-- Does `hay` start with `needle`?  (List-of-characters helper for Python's
substring operator.) -/
def startsWithL (needle : List Char) : List Char → Bool
  | [] => needle.isEmpty
  | h :: hs =>
    match needle with
    | [] => true
    | n :: ns => n == h && startsWithL ns hs

/-- Does `hay` contain `needle` as a contiguous run? -/
def containsL (needle : List Char) : List Char → Bool
  | [] => needle.isEmpty
  | h :: hs => startsWithL needle (h :: hs) || containsL needle hs

/-- Python's `needle in hay` on strings: contiguous-substring test. -/
def inStr (needle hay : String) : Bool := containsL needle.data hay.data

/-- `get_technical_summary(technical_data)`.  An empty frame returns the empty
dict (modelled as `none`); otherwise every signal is derived from the last row
with the source's `.get` defaults (rsi 50, macd/sma 0). -/
def get_technical_summary (p : Panel) : Option TechSummary :=
  match p.bars.getLast? with
  | none => none
  | some latest =>
    let rsiCur := getColLast p "rsi" (F.num 50)
    let rsiSignal :=
      if fgt rsiCur (F.num 70) then "Overbought"
      else if flt rsiCur (F.num 30) then "Oversold"
      else "Neutral"
    let macdCur := getColLast p "macd" (F.num 0)
    let macdSigCur := getColLast p "macd_signal" (F.num 0)
    let macdSignal :=
      if fgt macdCur macdSigCur then "Bullish"
      else if flt macdCur macdSigCur then "Bearish"
      else "Neutral"
    let price := F.num latest.close
    let sma20 := getColLast p "sma_20" (F.num 0)
    let sma50 := getColLast p "sma_50" (F.num 0)
    let trendSignal :=
      if fgt price sma20 && fgt sma20 sma50 then "Strong Uptrend"
      else if fgt price sma20 then "Uptrend"
      else if flt price sma20 && flt sma20 sma50 then "Strong Downtrend"
      else if flt price sma20 then "Downtrend"
      else "Sideways"
    let volumeSignal :=
      if 1 < p.bars.length then
        let avgVolume := (rollingMeanQ 20 (p.bars.map Bar.volume)).getLastD F.nan
        let currentVolume := F.num latest.volume
        if fgt currentVolume (fmul avgVolume (F.num (3 / 2))) then "High Volume"
        else if flt currentVolume (fmul avgVolume (F.num (1 / 2))) then "Low Volume"
        else "Normal Volume"
      else "Normal Volume"
    let bbUpper := getColLast p "bb_upper" (F.num 0)
    let bbLower := getColLast p "bb_lower" (F.num 0)
    let bollingerPosition :=
      if fgt price bbUpper then "Above Upper Band"
      else if flt price bbLower then "Below Lower Band"
      else "Within Bands"
    let bullish : ℕ :=
      (if rsiSignal = "Oversold" then 1 else 0)
        + (if macdSignal = "Bullish" then 1 else 0)
        + (if inStr "Uptrend" trendSignal then 1 else 0)
    let bearish : ℕ :=
      (if rsiSignal = "Overbought" then 1 else 0)
        + (if macdSignal = "Bearish" then 1 else 0)
        + (if ¬ inStr "Uptrend" trendSignal ∧ inStr "Downtrend" trendSignal then 1 else 0)
    let overallSignal :=
      if bearish < bullish then "Bullish - Consider buying on dips"
      else if bullish < bearish then "Bearish - Consider selling on rallies"
      else "Neutral - Wait for clearer signals"
    some
      { rsi_current := rsiCur
        rsi_signal := rsiSignal
        macd_signal := macdSignal
        trend_signal := trendSignal
        volume_signal := volumeSignal
        bollinger_position := bollingerPosition
        momentum_signal := rsiSignal
        overall_signal := overallSignal }

/-! ## Performance metrics (`StockComparison.calculate_metrics`) -/

/-- Sum of a float series (no NaN-skipping needed at its call sites: the
summed series are produced by `dropna`/arithmetic on dropna output). -/
def sumF (xs : List F) : F := xs.foldl fadd (F.num 0)

/-- Mean of a float series. -/
def meanF (xs : List F) : F := fdiv (sumF xs) (F.num xs.length)

/-- Sample standard deviation (`Series.std()`, `ddof = 1`) of a float series,
with `sq` standing for the float square root (applied when the variance is a
finite number, as it always is on the defined paths). -/
def stdF (sq : ℚ → ℚ) (xs : List F) : F :=
  let m := meanF xs
  let varF := fdiv (sumF (xs.map fun x => fmul (fsub x m) (fsub x m)))
    (F.num ((xs.length - 1 : ℕ)))
  match varF with
  | .num v => .num (sq v)
  | .pinf => .pinf
  | .ninf => .nan
  | .nan => .nan

/-- `(1 + returns).cumprod()`. -/
def cumprodF (xs : List F) : List F :=
  go (F.num 1) xs
where
  go : F → List F → List F
  | _, [] => []
  | acc, x :: rest =>
    let acc' := fmul acc (fadd (F.num 1) x)
    acc' :: go acc' rest

/-- Maximum of two non-NaN floats (helper for the NaN-skipping running max). -/
def fmax2 : F → F → F
  | .num a, .num b => .num (max a b)
  | .pinf, _ => .pinf
  | _, .pinf => .pinf
  | .nan, b => b
  | a, .nan => a
  | .ninf, b => b
  | a, .ninf => a

/-- `Series.expanding().max()`: running maximum over the valid (non-NaN)
values seen so far; NaN while no valid value has been seen. -/
def expandingMaxF (xs : List F) : List F :=
  go none xs
where
  go : Option F → List F → List F
  | acc, [] => match acc with | _ => ([] : List F)
  | acc, x :: rest =>
    let acc' := if x = F.nan then acc else some (match acc with
      | none => x
      | some a => fmax2 a x)
    (match acc' with | none => F.nan | some a => a) :: go acc' rest

/-- `Series.min()` with pandas' default NaN skipping: the minimum of the
non-NaN entries, NaN when there are none. -/
def fmin2 : F → F → F
  | .num a, .num b => .num (min a b)
  | .ninf, _ => .ninf
  | _, .ninf => .ninf
  | .nan, b => b
  | a, .nan => a
  | .pinf, b => b
  | a, .pinf => a

/-- `Series.min()` (skipna) of a float series. -/
def minSkipNanF (xs : List F) : F :=
  match xs.filter (fun x => x ≠ F.nan) with
  | [] => F.nan
  | y :: ys => ys.foldl fmin2 y

/-- `Series.max()` over an all-finite series, as used for `high_52w`
(call sites guarantee a nonempty list; the `[]` case is unreachable). -/
def listMaxQ : List ℚ → ℚ
  | [] => 0
  | x :: xs => xs.foldl max x

/-- `Series.min()` over an all-finite series (`low_52w`). -/
def listMinQ : List ℚ → ℚ
  | [] => 0
  | x :: xs => xs.foldl min x

/-- `close.pct_change().dropna()`: one IEEE ratio per consecutive pair (the
NaN at position 0 never materialises), then NaN entries (from `0/0`) dropped;
infinities survive `dropna`, as in pandas. -/
def pctChangeDropna (closes : List ℚ) : List F :=
  (List.zipWith (fun cur prev => fdiv (F.num (cur - prev)) (F.num prev))
      closes.tail closes).filter (fun x => x ≠ F.nan)

/-- The metrics dict of `calculate_metrics`.  Fields that a float pipeline can
drive to NaN/∞ (those passing through `std`/`cumprod` divisions) are `F`; the
remaining fields are exact rationals.  `sharpeRatio`/`volumeRatio` model the
source keys `sharpe_ratio`/`volume_ratio`. -/
structure Metrics where
  current_price : ℚ
  total_return : ℚ
  volatility : F
  sharpeRatio : F
  max_drawdown : F
  high_52w : ℚ
  low_52w : ℚ
  price_position : ℚ
  avg_volume : ℚ
  volumeRatio : ℚ
deriving DecidableEq

/-- `calculate_metrics(stock_data)`: `None` for an empty frame or fewer than
2 rows, otherwise the metrics dict (nothing on this path raises, so the
`except` branch is unreachable). -/
def calculate_metrics (sq : ℚ → ℚ) (stock_data : List Bar) : Option Metrics :=
  if stock_data.length < 2 then none
  else
    let closes := stock_data.map Bar.close
    let currentPrice := closes.getLastD 0
    let startPrice := closes.headD 0
    let totalReturn := if startPrice ≠ 0 then (currentPrice / startPrice - 1) * 100 else 0
    let returns := pctChangeDropna closes
    let retStd := stdF sq returns
    let volatility :=
      if returns.length < 2 then F.num 0
      else fmul (fmul retStd (F.num (sq 252))) (F.num 100)
    let sharpe :=
      if returns.length < 2 then F.num 0
      else
        let excess := returns.map fun r => fsub r (F.num (1 / 12600))
        if retStd ≠ F.num 0 then fmul (fdiv (meanF excess) retStd) (F.num (sq 252))
        else F.num 0
    let maxDrawdown :=
      if 0 < returns.length then
        let cumulative := cumprodF returns
        let rollingMax := expandingMaxF cumulative
        let drawdown := List.zipWith (fun c m => fsub (fdiv c m) (F.num 1)) cumulative rollingMax
        fmul (minSkipNanF drawdown) (F.num 100)
      else F.num 0
    let high52 := listMaxQ (stock_data.map Bar.high)
    let low52 := listMinQ (stock_data.map Bar.low)
    let priceRange := high52 - low52
    let pricePosition :=
      if 0 < priceRange then (currentPrice - low52) / priceRange * 100 else 50
    let avgVolume := (stock_data.map Bar.volume).sum / stock_data.length
    let currentVolume := (stock_data.map Bar.volume).getLastD 0
    let volumeRatio := if 0 < avgVolume then currentVolume / avgVolume else 1
    some
      { current_price := currentPrice
        total_return := totalReturn
        volatility := volatility
        sharpeRatio := sharpe
        max_drawdown := maxDrawdown
        high_52w := high52
        low_52w := low52
        price_position := pricePosition
        avg_volume := avgVolume
        volumeRatio := volumeRatio }

/-! ## Multi-asset scorer / ranker (`_generate_fallback_comparison`)

`_generate_fallback_comparison(symbols, comparison_data)` reads, per symbol,
`comparison_data[symbol]['data']` only through `self.calculate_metrics(...)`
(a pure function, so its several invocations on the same frame agree) and
`comparison_data[symbol]['summary']` (the dict produced by
`get_technical_summary`, possibly `{}`).  The embedding therefore cuts the
interface at that boundary: an `AssetData` carries the metrics result and the
summary.  The narrative string fields of the returned dict
(`risk_comparison`, `return_comparison`, `technical_comparison`,
`recommendation`, `summary`) are pure display text read by no claim and are
not modelled; the templated `rationale`/reasons strings are modelled as tagged
values carrying the interpolated data. -/

/-- Per-symbol entry of `comparison_data` at the scorer boundary. -/
structure AssetData where
  metricsResult : Option Metrics
  summary : Option TechSummary
deriving DecidableEq

/-- The per-symbol score of the fallback comparison: base 50; when
`calculate_metrics` returned `None` the symbol keeps score 50; otherwise the
source's seven adjustment blocks run in order and the result is clamped by
`max(0, min(100, score))`. -/
def scoreOf (mo : Option Metrics) (so : Option TechSummary) : ℚ :=
  match mo with
  | none => 50
  | some m =>
    let score : ℚ := 50
    let score := score +
      (if 30 < m.total_return then 25
       else if 20 < m.total_return then 20
       else if 10 < m.total_return then 15
       else if 0 < m.total_return then 10
       else if -10 < m.total_return then 5
       else -5)
    let score := score +
      (if fgt m.sharpeRatio (F.num 2) then 20
       else if fgt m.sharpeRatio (F.num (3 / 2)) then 15
       else if fgt m.sharpeRatio (F.num 1) then 10
       else if fgt m.sharpeRatio (F.num (1 / 2)) then 5
       else 0)
    let rsi := match so with
      | some s => s.rsi_current
      | none => F.num 50
    let score := score +
      (if fgt rsi (F.num 45) && flt rsi (F.num 55) then 10
       else if fgt rsi (F.num 40) && flt rsi (F.num 60) then 7
       else if fgt rsi (F.num 30) && flt rsi (F.num 70) then 3
       else 0)
    let trendSignal := match so with
      | some s => s.trend_signal
      | none => ""
    let score := score +
      (if inStr "Strong Uptrend" trendSignal then 5
       else if inStr "Uptrend" trendSignal then 3
       else if inStr "Downtrend" trendSignal then -3
       else 0)
    let score := score +
      (if flt m.volatility (F.num 15) then 15
       else if flt m.volatility (F.num 20) then 10
       else if flt m.volatility (F.num 30) then 5
       else if flt m.volatility (F.num 40) then 2
       else 0)
    let score := score +
      (if fgt m.max_drawdown (F.num (-10)) then 10
       else if fgt m.max_drawdown (F.num (-15)) then 7
       else if fgt m.max_drawdown (F.num (-20)) then 5
       else if fgt m.max_drawdown (F.num (-30)) then 2
       else 0)
    let macdSig : Option String := match so with
      | some s => some s.macd_signal
      | none => none
    let score := score +
      (if macdSig = some "Bullish" then 5
       else if macdSig = some "Bearish" then -2
       else 0)
    max 0 (min 100 score)

/-- One entry of the `scores` dict together with its insertion position and
its asset data: `idx` is the position at which the symbol was inserted (input
order restricted to symbols present in `comparison_data`). -/
structure ScoredAsset where
  idx : ℕ
  sym : String
  score : ℚ
  data : AssetData
deriving DecidableEq

/-- The `scores` dict of the fallback comparison in insertion order, with
positions attached. -/
def mkEntries (symbols : List String) (cd : String → Option AssetData) : List ScoredAsset :=
  ((symbols.filterMap fun s => (cd s).map fun a => (s, a)).enum).map
    fun p => ⟨p.1, p.2.1, scoreOf p.2.2.metricsResult p.2.2.summary, p.2.2⟩

/-- The `(symbol, score)` pairs of the `scores` dict, in insertion order. -/
def scoredList (symbols : List String) (cd : String → Option AssetData) : List (String × ℚ) :=
  (mkEntries symbols cd).map fun e => (e.sym, e.score)

/-- Order used to model
`sorted(scores.items(), key=lambda x: x[1], reverse=True)`: Python's `sorted`
is stable, and a stable descending sort by score of entries carrying distinct
insertion positions is exactly a sort by the total order "higher score first,
equal scores by insertion position".  Sorting `mkEntries` (whose `idx` values
are distinct and increasing) by `lexLE` with any correct sorting algorithm
therefore reproduces the source's `ranked` list. -/
def lexLE (a b : ScoredAsset) : Prop :=
  b.score < a.score ∨ (a.score = b.score ∧ a.idx ≤ b.idx)

instance : DecidableRel lexLE := fun _ _ =>
  inferInstanceAs (Decidable (_ ∨ _))

instance : IsTotal ScoredAsset lexLE where
  total a b := by
    rcases lt_trichotomy a.score b.score with h | h | h
    · exact Or.inr (Or.inl h)
    · rcases Nat.le_total a.idx b.idx with hi | hi
      · exact Or.inl (Or.inr ⟨h, hi⟩)
      · exact Or.inr (Or.inr ⟨h.symm, hi⟩)
    · exact Or.inl (Or.inl h)

instance : IsTrans ScoredAsset lexLE where
  trans a b c hab hbc := by
    rcases hab with h1 | ⟨h1, h1i⟩
    · rcases hbc with h2 | ⟨h2, _⟩
      · exact Or.inl (h2.trans h1)
      · exact Or.inl (h2 ▸ h1)
    · rcases hbc with h2 | ⟨h2, h2i⟩
      · exact Or.inl (h1 ▸ h2)
      · exact Or.inr ⟨h1.trans h2, h1i.trans h2i⟩

/-- The source's `ranked` list. -/
def rankedList (symbols : List String) (cd : String → Option AssetData) : List ScoredAsset :=
  List.insertionSort lexLE (mkEntries symbols cd)

/-- The templated `rationale` string of one rankings entry, as structured
data. -/
inductive Rationale where
  | full (score totalReturn : ℚ) (volatility sharpe : F) (trend : String)
  | limited (score : ℚ)
  | insufficient
deriving DecidableEq

/-- One entry of the `rankings` list. -/
structure RankEntry where
  symbol : String
  rank : ℕ
  score : ℚ
  rationale : Rationale
deriving DecidableEq

/-- The templated `best_choice_reasons` strings, as structured data. -/
inductive Reason where
  | highestScore (score : ℚ)
  | superiorReturn (totalReturn : ℚ)
  | bestRiskAdjusted (sharpe : F)
  | excellentRiskReward (sharpe dd : F)
  | favorableTechnical (trend : String) (rsi : F)
  | outperforms (second : String) (margin : ℚ)
  | lowerVolatility (v : F) (second : String) (v2 : F)
  | staticMsg (s : String)
deriving DecidableEq

/-- Is this reason one of the two comparisons against the rank-2 asset? -/
def isComparative : Reason → Bool
  | .outperforms _ _ => true
  | .lowerVolatility _ _ _ => true
  | _ => false

/-- The `rankings` list built from `ranked`: 1-based dense ranks in sorted
order; a symbol whose metrics were `None` gets the "Limited data available"
rationale (`int(score)` is the identity here: every score is an integer). -/
def mkRankings (ranked : List ScoredAsset) : List RankEntry :=
  ranked.enum.map fun p =>
    { symbol := p.2.sym
      rank := p.1 + 1
      score := p.2.score
      rationale :=
        match p.2.data.metricsResult with
        | some m => .full p.2.score m.total_return m.volatility m.sharpeRatio
            (match p.2.data.summary with
             | some s => s.trend_signal
             | none => "Neutral")
        | none => .limited p.2.score }

/-- `summary.get('trend_signal', dflt)`. -/
def trendOfD (so : Option TechSummary) (dflt : String) : String :=
  match so with
  | some s => s.trend_signal
  | none => dflt

/-- `summary.get('rsi_current', 50)`. -/
def rsiOfD (so : Option TechSummary) : F :=
  match so with
  | some s => s.rsi_current
  | none => F.num 50

/-- The `best_choice_reasons` list: three unconditional template reasons,
then — only when a rank-2 asset with usable metrics exists — the return
outperformance reason, or else the lower-volatility reason, or nothing when
the best asset strictly wins on neither; finally truncated to 4. -/
def mkReasons (best : ScoredAsset) (rest : List ScoredAsset) (bm : Metrics) : List Reason :=
  ([Reason.highestScore best.score]
    ++ [if 0 < bm.total_return then Reason.superiorReturn bm.total_return
        else Reason.bestRiskAdjusted bm.sharpeRatio]
    ++ [if fgt bm.sharpeRatio (F.num (1 / 2)) then
          Reason.excellentRiskReward bm.sharpeRatio bm.max_drawdown
        else Reason.favorableTechnical (trendOfD best.data.summary "stable trend")
          (rsiOfD best.data.summary)]
    ++ (match rest with
        | [] => []
        | second :: _ =>
          match second.data.metricsResult with
          | none => []
          | some sm =>
            if sm.total_return < bm.total_return then
              [Reason.outperforms second.sym (bm.total_return - sm.total_return)]
            else if flt bm.volatility sm.volatility then
              [Reason.lowerVolatility bm.volatility second.sym sm.volatility]
            else [])).take 4

/-- The analysis dict (claim-relevant fields). -/
structure Analysis where
  best_choice : String
  best_choice_reasons : List Reason
  rankings : List RankEntry
deriving DecidableEq

/-- `_get_default_analysis(symbols)`: the degraded result, ranking every
requested symbol in input order with score 50. -/
def default_analysis (symbols : List String) : Analysis :=
  { best_choice := symbols.headD "N/A"
    best_choice_reasons :=
      [.staticMsg "Insufficient data available for comprehensive analysis",
       .staticMsg "Please try different stock symbols or time periods",
       .staticMsg "Ensure stock symbols are valid for their respective markets"]
    rankings := symbols.enum.map fun p =>
      { symbol := p.2, rank := p.1 + 1, score := 50, rationale := .insufficient } }

/-- `_generate_fallback_comparison(symbols, comparison_data)`: score the
symbols present in `comparison_data`, rank them (stable descending sort),
and build the result; an empty `ranked` list or a best asset without usable
metrics yields `_get_default_analysis`. -/
def generate_fallback_comparison (symbols : List String) (cd : String → Option AssetData) :
    Analysis :=
  match rankedList symbols cd with
  | [] => default_analysis symbols
  | best :: rest =>
    match best.data.metricsResult with
    | none => default_analysis symbols
    | some bm =>
      { best_choice := best.sym
        best_choice_reasons := mkReasons best rest bm
        rankings := mkRankings (best :: rest) }

/-- Did the top-ranked asset of the fallback comparison have usable metrics?
(The source returns `_get_default_analysis` when not.) -/
def bestHasMetrics (symbols : List String) (cd : String → Option AssetData) : Bool :=
  match rankedList symbols cd with
  | [] => false
  | b :: _ => b.data.metricsResult.isSome

/-- Concrete scenario metrics: a losing asset (total return −50%, Sharpe 0,
volatility 50, drawdown −50). -/
def mLoss : Metrics := ⟨1, -50, F.num 50, F.num 0, F.num (-50), 1, 1, 50, 0, 1⟩

/-- Concrete scenario summary: RSI 20, bearish MACD, sideways trend. -/
def sLoss : TechSummary :=
  ⟨F.num 20, "Oversold", "Bearish", "Sideways", "Normal Volume", "Within Bands",
    "Oversold", "Neutral - Wait for clearer signals"⟩

/-- Concrete scenario metrics: a winning asset (total return +25%). -/
def mGain : Metrics := ⟨1, 25, F.num 50, F.num 0, F.num (-50), 1, 1, 50, 0, 1⟩

/-- C2 scenario: symbol "B" has data with the losing metrics (score 43),
symbol "A" has data whose metrics computation returned `None` (score 50). -/
def cdC2 : String → Option AssetData := fun s =>
  if s = "B" then some ⟨some mLoss, some sLoss⟩
  else if s = "A" then some ⟨none, none⟩ else none

/-- C7 scenario: symbol "A" has data but unusable metrics (`None`), symbol
"B" has usable metrics (score 80). -/
def cdC7 : String → Option AssetData := fun s =>
  if s = "A" then some ⟨none, none⟩
  else if s = "B" then some ⟨some mGain, none⟩ else none

/-- C8 scenario: both symbols have identical usable metrics, so the best
asset beats the runner-up on neither return nor volatility. -/
def cdC8 : String → Option AssetData := fun s =>
  if s = "A" ∨ s = "B" then some ⟨some mGain, none⟩ else none

/-- Scored entry of symbol "B" in the C2 scenario. -/
def eB2 : ScoredAsset := ⟨0, "B", 43, ⟨some mLoss, some sLoss⟩⟩

/-- Scored entry of symbol "A" in the C2 scenario. -/
def eA2 : ScoredAsset := ⟨1, "A", 50, ⟨none, none⟩⟩

/-- Scored entry of symbol "A" in the C7 scenario. -/
def eA7 : ScoredAsset := ⟨0, "A", 50, ⟨none, none⟩⟩

/-- Scored entry of symbol "B" in the C7 scenario. -/
def eB7 : ScoredAsset := ⟨1, "B", 80, ⟨some mGain, none⟩⟩

/-- Scored entry of symbol "A" in the C8 scenario. -/
def eA8 : ScoredAsset := ⟨0, "A", 80, ⟨some mGain, none⟩⟩

/-- Scored entry of symbol "B" in the C8 scenario. -/
def eB8 : ScoredAsset := ⟨1, "B", 80, ⟨some mGain, none⟩⟩

/-- C8-witness scenario: "A" with the winning metrics, "B" with the losing
metrics — the best asset strictly outperforms the runner-up. -/
def cdC8w : String → Option AssetData := fun s =>
  if s = "A" then some ⟨some mGain, none⟩
  else if s = "B" then some ⟨some mLoss, some sLoss⟩ else none

/-- Scored entry of symbol "A" in the C8-witness scenario. -/
def eA8w : ScoredAsset := ⟨0, "A", 80, ⟨some mGain, none⟩⟩

/-- Scored entry of symbol "B" in the C8-witness scenario. -/
def eB8w : ScoredAsset := ⟨1, "B", 43, ⟨some mLoss, some sLoss⟩⟩

/-! ## Spec-side definitions

The following definitions are written from the WORDS OF THE SPEC (not from the
code); they exist only to be compared against the embedded code in the
refinement-style claims below. -/

/-- Spec §4.4: "Total return: >30%→+25, >20%→+20, >10%→+15, >0%→+10,
>−10%→+5, else −5 (first satisfied threshold, checked highest-first)". -/
def specReturnAdjustment (m : Metrics) : ℚ :=
  if 30 < m.total_return then 25
  else if 20 < m.total_return then 20
  else if 10 < m.total_return then 15
  else if 0 < m.total_return then 10
  else if -10 < m.total_return then 5
  else -5

/-- Spec §4.4: "Sharpe ratio: >2.0→+20, >1.5→+15, >1.0→+10, >0.5→+5,
else +0". -/
def specSharpeAdjustment (m : Metrics) : ℚ :=
  if fgt m.sharpeRatio (F.num 2) then 20
  else if fgt m.sharpeRatio (F.num (3 / 2)) then 15
  else if fgt m.sharpeRatio (F.num 1) then 10
  else if fgt m.sharpeRatio (F.num (1 / 2)) then 5
  else 0

/-- Spec §4.4: "RSI closeness to 50: within (45,55)→+10, within (40,60)→+7,
within (30,70)→+3, else +0". -/
def specRsiAdjustment (so : Option TechSummary) : ℚ :=
  let rsi := rsiOfD so
  if fgt rsi (F.num 45) && flt rsi (F.num 55) then 10
  else if fgt rsi (F.num 40) && flt rsi (F.num 60) then 7
  else if fgt rsi (F.num 30) && flt rsi (F.num 70) then 3
  else 0

/-- Spec §4.4: "Trend bonus: Strong Uptrend→+5, Uptrend→+3, Downtrend→−3,
else 0 (apply first substring match found, in that check order)". -/
def specTrendAdjustment (so : Option TechSummary) : ℚ :=
  let t := trendOfD so ""
  if inStr "Strong Uptrend" t then 5
  else if inStr "Uptrend" t then 3
  else if inStr "Downtrend" t then -3
  else 0

/-- Spec §4.4: "Volatility (lower better): <15→+15, <20→+10, <30→+5, <40→+2,
else 0". -/
def specVolatilityAdjustment (m : Metrics) : ℚ :=
  if flt m.volatility (F.num 15) then 15
  else if flt m.volatility (F.num 20) then 10
  else if flt m.volatility (F.num 30) then 5
  else if flt m.volatility (F.num 40) then 2
  else 0

/-- Spec §4.4: "Max drawdown: >−10→+10, >−15→+7, >−20→+5, >−30→+2, else 0". -/
def specDrawdownAdjustment (m : Metrics) : ℚ :=
  if fgt m.max_drawdown (F.num (-10)) then 10
  else if fgt m.max_drawdown (F.num (-15)) then 7
  else if fgt m.max_drawdown (F.num (-20)) then 5
  else if fgt m.max_drawdown (F.num (-30)) then 2
  else 0

/-- Spec §4.4: "MACD: Bullish→+5, Bearish→−2, else 0". -/
def specMacdAdjustment (so : Option TechSummary) : ℚ :=
  match so with
  | some s => if s.macd_signal = "Bullish" then 5
      else if s.macd_signal = "Bearish" then -2
      else 0
  | none => 0

/-- The closed form of pandas' `ewm(span=w).mean()` with `adjust=True`
(the amended C9 statement): position `i` is the `(1-α)^j`-weighted mean of
the first `i+1` samples, `α = 2/(w+1)`. -/
def emaAdjustedWeightedMean (w : ℕ) (xs : List ℚ) (i : ℕ) : ℚ :=
  (∑ j in Finset.range (i + 1), (1 - 2 / (w + 1 : ℚ)) ^ (i - j) * xs.getD j 0) /
    (∑ j in Finset.range (i + 1), (1 - 2 / (w + 1 : ℚ)) ^ j)

/-! ## Claims -/

/-- **C1**.  For every combination of performance metrics and technical
summaries — including adversarial extremes such as `total_return = 1e6` or
`volatility = 0` — the composite score of the fallback scorer starts from a
base of 50, adds the seven documented additive adjustments, is clamped to
`[0, 100]`, and every score the fallback comparison assigns to an asset lies
in `[0, 100]`. -/
theorem C1_fallback_score_clamped :
    (∀ (mo : Option Metrics) (so : Option TechSummary),
        0 ≤ scoreOf mo so ∧ scoreOf mo so ≤ 100) ∧
    (∀ (m : Metrics) (so : Option TechSummary),
        scoreOf (some m) so =
          max 0 (min 100 (50 + specReturnAdjustment m + specSharpeAdjustment m
            + specRsiAdjustment so + specTrendAdjustment so
            + specVolatilityAdjustment m + specDrawdownAdjustment m
            + specMacdAdjustment so))) ∧
    (∀ (symbols : List String) (cd : String → Option AssetData) (p : String × ℚ),
        p ∈ scoredList symbols cd → 0 ≤ p.2 ∧ p.2 ≤ 100) := by
  have hbound : ∀ (mo : Option Metrics) (so : Option TechSummary),
      0 ≤ scoreOf mo so ∧ scoreOf mo so ≤ 100 := by
    intro mo so
    cases mo with
    | none => exact ⟨by norm_num [scoreOf], by norm_num [scoreOf]⟩
    | some m =>
      exact ⟨le_max_left _ _, max_le (by norm_num) (min_le_left _ _)⟩
  refine ⟨hbound, ?_, ?_⟩
  · intro m so
    cases so <;>
      simp only [scoreOf, specReturnAdjustment, specSharpeAdjustment, specRsiAdjustment,
        specTrendAdjustment, specVolatilityAdjustment, specDrawdownAdjustment,
        specMacdAdjustment, rsiOfD, trendOfD, Option.some.injEq, reduceCtorEq,
        if_false, if_true]
  · intro symbols cd p hp
    rw [scoredList, mkEntries, List.map_map] at hp
    obtain ⟨q, hq, rfl⟩ := List.mem_map.mp hp
    exact hbound _ _

/-- Witness for C1: a concrete asset present in `comparison_data` with
`calculate_metrics = None` receives the in-range score 50. -/
theorem C1_fallback_score_clamped_witness :
    ("A", (50 : ℚ)) ∈ scoredList ["A"] (fun _ => some ⟨none, none⟩) ∧
      (0 ≤ (50 : ℚ) ∧ (50 : ℚ) ≤ 100) :=
  ⟨by decide, C1_fallback_score_clamped.2.2 ["A"] (fun _ => some ⟨none, none⟩)
    ("A", (50 : ℚ)) (by decide)⟩

/-- **C4 counterexample**.  On an empty input panel `get_technical_summary`
returns the empty dict (`none`), NOT a populated summary with neutral
defaults: no summary with `rsi_current = 50` and the neutral overall signal
(nor any summary at all) is returned. -/
theorem C4_empty_panel_counterexample :
    get_technical_summary ⟨[], []⟩ = none ∧
      ¬ ∃ s : TechSummary, get_technical_summary ⟨[], []⟩ = some s ∧
          s.rsi_current = F.num 50 ∧
          s.overall_signal = "Neutral - Wait for clearer signals" := by
  refine ⟨rfl, ?_⟩
  rintro ⟨s, hs, -, -⟩
  exact Option.noConfusion hs

/-- **C4 (amended)**.  An empty panel yields the EMPTY summary dict (`{}`,
i.e. `none`) rather than raising; on a nonempty panel any missing underlying
value defaults: a missing `rsi` column defaults to 50 (signal "Neutral"),
missing `macd` columns default to 0 (signal "Neutral"), and missing SMA
columns default to 0, so `trend_signal` is "Sideways" only for `close = 0`
and otherwise "Uptrend"/"Downtrend" by the sign of the close. -/
theorem C4_empty_and_missing_value_defaults (b : Bar) :
    get_technical_summary ⟨[], []⟩ = none ∧
      (get_technical_summary ⟨[b], []⟩).map TechSummary.rsi_current = some (F.num 50) ∧
      (get_technical_summary ⟨[b], []⟩).map TechSummary.rsi_signal = some "Neutral" ∧
      (get_technical_summary ⟨[b], []⟩).map TechSummary.macd_signal = some "Neutral" ∧
      (get_technical_summary ⟨[b], []⟩).map TechSummary.volume_signal = some "Normal Volume" ∧
      (get_technical_summary ⟨[b], []⟩).map TechSummary.trend_signal =
        some (if 0 < b.close then "Uptrend"
          else if b.close < 0 then "Downtrend" else "Sideways") := by
  refine ⟨rfl, rfl, rfl, rfl, rfl, ?_⟩
  show some (if fgt (F.num b.close) (F.num 0) && fgt (F.num 0) (F.num 0) then "Strong Uptrend"
      else if fgt (F.num b.close) (F.num 0) then "Uptrend"
      else if flt (F.num b.close) (F.num 0) && flt (F.num 0) (F.num 0) then "Strong Downtrend"
      else if flt (F.num b.close) (F.num 0) then "Downtrend"
      else "Sideways") = _
  simp only [fgt, flt]
  by_cases h : 0 < b.close
  · simp [h]
  · by_cases h2 : b.close < 0
    · simp [h, h2]
    · simp [h, h2]

/-- Evaluation of `fsub` on finite values. -/
theorem fsub_num (a b : ℚ) : fsub (F.num a) (F.num b) = F.num (a - b) := by
  simp [fsub, fadd, fneg, sub_eq_add_neg]

set_option maxRecDepth 4000 in
/-- **C5 counterexample**.  On a flat 14-bar window (highest high = lowest
low = close = 5) the source's Stochastic %K and Williams %R at position 13 are
NaN (the 0/0 of the unguarded division), not the neutral 50 / −50 the claim
asserts. -/
theorem C5_flat_range_counterexample :
    (rollingMaxQ 14 (List.replicate 14 (5 : ℚ)))[13]? = some (F.num 5) ∧
      (rollingMinQ 14 (List.replicate 14 (5 : ℚ)))[13]? = some (F.num 5) ∧
      (calculate_stochastic 14 3 (List.replicate 14 (5 : ℚ)) (List.replicate 14 (5 : ℚ))
          (List.replicate 14 (5 : ℚ))).1[13]? = some F.nan ∧
      (calculate_williams_r 14 (List.replicate 14 (5 : ℚ)) (List.replicate 14 (5 : ℚ))
          (List.replicate 14 (5 : ℚ)))[13]? = some F.nan ∧
      F.nan ≠ F.num 50 ∧ F.nan ≠ F.num (-50) := by
  have hmax : (rollingMaxQ 14 (List.replicate 14 (5 : ℚ)))[13]? = some (F.num 5) := by decide
  have hmin : (rollingMinQ 14 (List.replicate 14 (5 : ℚ)))[13]? = some (F.num 5) := by decide
  have hc : (List.replicate 14 (5 : ℚ))[13]? = some 5 := by decide
  have hzip : ((rollingMinQ 14 (List.replicate 14 (5 : ℚ))).zip
      (rollingMaxQ 14 (List.replicate 14 (5 : ℚ))))[13]? = some (F.num 5, F.num 5) :=
    List.getElem?_zip_eq_some.mpr ⟨hmin, hmax⟩
  have hk : (calculate_stochastic 14 3 (List.replicate 14 (5 : ℚ)) (List.replicate 14 (5 : ℚ))
      (List.replicate 14 (5 : ℚ))).1[13]? =
      some (fmul (F.num 100) (fdiv (fsub (F.num 5) (F.num 5)) (fsub (F.num 5) (F.num 5)))) :=
    List.getElem?_zipWith_eq_some.mpr ⟨5, (F.num 5, F.num 5), hc, hzip, rfl⟩
  have hw : (calculate_williams_r 14 (List.replicate 14 (5 : ℚ)) (List.replicate 14 (5 : ℚ))
      (List.replicate 14 (5 : ℚ)))[13]? =
      some (fmul (F.num (-100)) (fdiv (fsub (F.num 5) (F.num 5)) (fsub (F.num 5) (F.num 5)))) :=
    List.getElem?_zipWith_eq_some.mpr ⟨5, (F.num 5, F.num 5), hc, hzip, rfl⟩
  have hnan : fdiv (fsub (F.num 5) (F.num 5)) (fsub (F.num 5) (F.num 5)) = F.nan := by
    rw [fsub_num, sub_self]
    simp [fdiv]
  rw [hk, hw, hnan]
  exact ⟨hmax, hmin, rfl, rfl, by decide, by decide⟩

/-- **C5 (amended)**.  At every position whose trailing window has zero range
(highest high = lowest low = `v`), `%K` and `%R` carry no neutral fallback:
the division-by-zero result propagates — NaN when the close equals the flat
level, `±∞` otherwise — and the output is never the neutral `50` / `-50`. -/
theorem C5_zero_range_propagates (kw dw : ℕ) (high low close : List ℚ) (i : ℕ) (v c : ℚ)
    (hmax : (rollingMaxQ kw high)[i]? = some (F.num v))
    (hmin : (rollingMinQ kw low)[i]? = some (F.num v))
    (hc : close[i]? = some c) :
    (calculate_stochastic kw dw high low close).1[i]? =
        some (if c = v then F.nan else if v < c then F.pinf else F.ninf) ∧
      (calculate_williams_r kw high low close)[i]? =
        some (if c = v then F.nan else if c < v then F.ninf else F.pinf) ∧
      (calculate_stochastic kw dw high low close).1[i]? ≠ some (F.num 50) ∧
      (calculate_williams_r kw high low close)[i]? ≠ some (F.num (-50)) := by
  have hzip : ((rollingMinQ kw low).zip (rollingMaxQ kw high))[i]? =
      some (F.num v, F.num v) :=
    List.getElem?_zip_eq_some.mpr ⟨hmin, hmax⟩
  have hk : (calculate_stochastic kw dw high low close).1[i]? =
      some (fmul (F.num 100) (fdiv (fsub (F.num c) (F.num v)) (fsub (F.num v) (F.num v)))) := by
    show (List.zipWith (fun c p => fmul (F.num 100) (fdiv (fsub (F.num c) p.1) (fsub p.2 p.1)))
        close ((rollingMinQ kw low).zip (rollingMaxQ kw high)))[i]? = _
    exact List.getElem?_zipWith_eq_some.mpr ⟨c, (F.num v, F.num v), hc, hzip, rfl⟩
  have hw : (calculate_williams_r kw high low close)[i]? =
      some (fmul (F.num (-100)) (fdiv (fsub (F.num v) (F.num c)) (fsub (F.num v) (F.num v)))) := by
    show (List.zipWith (fun c p => fmul (F.num (-100)) (fdiv (fsub p.2 (F.num c)) (fsub p.2 p.1)))
        close ((rollingMinQ kw low).zip (rollingMaxQ kw high)))[i]? = _
    exact List.getElem?_zipWith_eq_some.mpr ⟨c, (F.num v, F.num v), hc, hzip, rfl⟩
  rw [hk, hw, fsub_num, fsub_num, fsub_num, sub_self]
  rcases lt_trichotomy c v with h | h | h
  · have h1 : c - v < 0 := by linarith
    have h2 : 0 < v - c := by linarith
    have hne : c ≠ v := ne_of_lt h
    have hne2 : v ≠ c := ne_of_gt h
    have d1 : fdiv (F.num (c - v)) (F.num 0) = F.ninf := by
      simp [fdiv, sub_eq_zero, hne, not_lt.mpr h1.le]
    have d2 : fdiv (F.num (v - c)) (F.num 0) = F.pinf := by
      simp [fdiv, sub_eq_zero, hne2, h2]
    have m1 : fmul (F.num 100) F.ninf = F.ninf := by norm_num [fmul]
    have m2 : fmul (F.num (-100)) F.pinf = F.ninf := by norm_num [fmul]
    rw [d1, d2, m1, m2]
    exact ⟨by simp [hne, lt_asymm h], by simp [hne, h], by simp, by simp⟩
  · subst h
    have d0 : fdiv (F.num (c - c)) (F.num 0) = F.nan := by simp [fdiv]
    rw [d0]
    have m1 : fmul (F.num 100) F.nan = F.nan := by norm_num [fmul]
    have m2 : fmul (F.num (-100)) F.nan = F.nan := by norm_num [fmul]
    rw [m1, m2]
    exact ⟨by simp, by simp, by simp, by simp⟩
  · have h1 : 0 < c - v := by linarith
    have h2 : v - c < 0 := by linarith
    have hne : c ≠ v := ne_of_gt h
    have hne2 : v ≠ c := ne_of_lt h
    have d1 : fdiv (F.num (c - v)) (F.num 0) = F.pinf := by
      simp [fdiv, sub_eq_zero, hne, h1]
    have d2 : fdiv (F.num (v - c)) (F.num 0) = F.ninf := by
      simp [fdiv, sub_eq_zero, hne2, not_lt.mpr h2.le]
    have m1 : fmul (F.num 100) F.pinf = F.pinf := by norm_num [fmul]
    have m2 : fmul (F.num (-100)) F.ninf = F.pinf := by norm_num [fmul]
    rw [d1, d2, m1, m2]
    exact ⟨by simp [hne, h], by simp [hne, lt_asymm h], by simp, by simp⟩

set_option maxRecDepth 4000 in
/-- Witness for C5: the amended theorem applied to the flat 14-bar series. -/
theorem C5_zero_range_propagates_witness :
    (calculate_stochastic 14 3 (List.replicate 14 (5 : ℚ)) (List.replicate 14 (5 : ℚ))
        (List.replicate 14 (5 : ℚ))).1[13]? = some F.nan ∧
      (calculate_williams_r 14 (List.replicate 14 (5 : ℚ)) (List.replicate 14 (5 : ℚ))
        (List.replicate 14 (5 : ℚ)))[13]? ≠ some (F.num (-50)) := by
  have h := C5_zero_range_propagates 14 3 (List.replicate 14 (5 : ℚ))
    (List.replicate 14 (5 : ℚ)) (List.replicate 14 (5 : ℚ)) 13 5 5
    (by decide) (by decide) (by decide)
  exact ⟨by simpa using h.1, h.2.2.2⟩

/-- Any element of a `zipWith` image is a value of the zipped function. -/
theorem mem_zipWith_decomp {α β γ : Type} {f : α → β → γ} :
    ∀ {as : List α} {bs : List β} {y : γ}, y ∈ List.zipWith f as bs → ∃ a b, y = f a b := by
  intro as
  induction as with
  | nil => intro bs y h; simp at h
  | cons a as ih =>
    intro bs y h
    cases bs with
    | nil => simp at h
    | cons b bs =>
      simp only [List.zipWith_cons_cons, List.mem_cons] at h
      rcases h with rfl | h
      · exact ⟨a, b, rfl⟩
      · exact ih h

/-- Every entry of the gain series is nonnegative. -/
theorem gains_nonneg (xs : List ℚ) : ∀ y ∈ gains xs, 0 ≤ y := by
  cases xs with
  | nil => simp [gains]
  | cons x rest =>
    intro y hy
    simp only [gains, List.mem_cons] at hy
    rcases hy with rfl | hy
    · exact le_refl 0
    · obtain ⟨a, b, rfl⟩ := mem_zipWith_decomp hy
      split
      · next h => exact le_of_lt h
      · exact le_refl 0

/-- Positional characterisation of the rolling mean over finite floats. -/
theorem rollingMeanQ_getElem? (w : ℕ) (xs : List ℚ) (i : ℕ) (hi : i < xs.length) :
    (rollingMeanQ w xs)[i]? =
      some (if i + 1 < w then F.nan else F.num ((windowAt w i xs).sum / w)) := by
  unfold rollingMeanQ
  rw [List.getElem?_map, List.getElem?_range hi]
  rfl

/-- The rolling mean only has entries at positions of the input. -/
theorem rollingMeanQ_getElem?_bound {w : ℕ} {xs : List ℚ} {i : ℕ} {v : F}
    (h : (rollingMeanQ w xs)[i]? = some v) : i < xs.length := by
  by_contra hi
  rw [rollingMeanQ, List.getElem?_map, List.getElem?_eq_none] at h
  · exact Option.noConfusion h
  · simpa using le_of_not_lt hi

/-- **C6 (amended)**.  At a position where the rolling loss average is 0, the
RSI output is 100 when the gain average is nonzero, but NaN — not 100 — when
the gain average is also 0 (flat window): the `0/0` of `rs` propagates. -/
theorem C6_rsi_loss_zero (w : ℕ) (xs : List ℚ) (i : ℕ) (g : ℚ)
    (hl : (rollingMeanQ w (losses xs))[i]? = some (F.num 0))
    (hg : (rollingMeanQ w (gains xs))[i]? = some (F.num g)) :
    (calculate_rsi w xs)[i]? = some (if g = 0 then F.nan else F.num 100) := by
  have hk : (calculate_rsi w xs)[i]? =
      some (fsub (F.num 100) (fdiv (F.num 100) (fadd (F.num 1) (fdiv (F.num g) (F.num 0))))) :=
    List.getElem?_zipWith_eq_some.mpr ⟨F.num g, F.num 0, hg, hl, rfl⟩
  have hi : i < (gains xs).length := rollingMeanQ_getElem?_bound hg
  have hg0 : 0 ≤ g := by
    rw [rollingMeanQ_getElem? w (gains xs) i hi] at hg
    by_cases hw : i + 1 < w
    · rw [if_pos hw] at hg
      exact absurd hg (by simp)
    · rw [if_neg hw] at hg
      injection hg with hg
      injection hg with hg
      rw [← hg]
      apply div_nonneg
      · apply List.sum_nonneg
        intro y hy
        exact gains_nonneg xs y
          (List.mem_of_mem_take (List.mem_of_mem_drop hy))
      · exact Nat.cast_nonneg w
  rw [hk]
  by_cases hz : g = 0
  · subst hz
    simp [fdiv, fadd, fsub, fneg]
  · have hgpos : 0 < g := lt_of_le_of_ne hg0 (Ne.symm hz)
    have d1 : fdiv (F.num g) (F.num 0) = F.pinf := by simp [fdiv, hz, hgpos]
    rw [d1, if_neg hz]
    show some (fsub (F.num 100) (fdiv (F.num 100) F.pinf)) = some (F.num 100)
    simp [fsub, fdiv, fadd, fneg]

/-- Zipping a constant series against its one-longer shift with a function
vanishing on the diagonal gives the zero series. -/
theorem zipWith_replicate_diag {f : ℚ → ℚ → ℚ} (a : ℚ) (hf : f a a = 0) :
    ∀ n : ℕ, List.zipWith f (List.replicate n a) (List.replicate (n + 1) a) =
      List.replicate n 0 := by
  intro n
  induction n with
  | zero => rfl
  | succ n ih =>
    show f a a :: List.zipWith f (List.replicate n a) (List.replicate (n + 1) a) =
      List.replicate (n + 1) 0
    rw [hf, ih]
    rfl

/-- A flat series has zero losses everywhere. -/
theorem losses_replicate (n : ℕ) (a : ℚ) :
    losses (List.replicate n a) = List.replicate n 0 := by
  cases n with
  | zero => rfl
  | succ n =>
    show 0 :: List.zipWith _ (List.replicate n a) (a :: List.replicate n a) =
      List.replicate (n + 1) 0
    rw [show a :: List.replicate n a = List.replicate (n + 1) a from rfl,
      zipWith_replicate_diag a (by simp), List.replicate_succ]

/-- A flat series has zero gains everywhere. -/
theorem gains_replicate (n : ℕ) (a : ℚ) :
    gains (List.replicate n a) = List.replicate n 0 := by
  cases n with
  | zero => rfl
  | succ n =>
    show 0 :: List.zipWith _ (List.replicate n a) (a :: List.replicate n a) =
      List.replicate (n + 1) 0
    rw [show a :: List.replicate n a = List.replicate (n + 1) a from rfl,
      zipWith_replicate_diag a (by simp), List.replicate_succ]

/-- **C6 counterexample**.  On a flat 14-bar series the loss average over the
14-window at position 13 is 0 — and so is the gain average — and the RSI
output there is NaN, not 100 as the claim asserts. -/
theorem C6_flat_window_counterexample :
    (rollingMeanQ 14 (losses (List.replicate 14 (5 : ℚ))))[13]? = some (F.num 0) ∧
      (rollingMeanQ 14 (gains (List.replicate 14 (5 : ℚ))))[13]? = some (F.num 0) ∧
      (calculate_rsi 14 (List.replicate 14 (5 : ℚ)))[13]? = some F.nan ∧
      F.nan ≠ F.num 100 := by
  have hmean : (rollingMeanQ 14 (List.replicate 14 (0 : ℚ)))[13]? = some (F.num 0) := by
    rw [rollingMeanQ_getElem? 14 (List.replicate 14 (0 : ℚ)) 13 (by simp)]
    rw [if_neg (by norm_num)]
    congr 2
    rw [windowAt, List.take_of_length_le (by simp)]
    simp
  have hl : (rollingMeanQ 14 (losses (List.replicate 14 (5 : ℚ))))[13]? = some (F.num 0) := by
    rw [losses_replicate]; exact hmean
  have hg : (rollingMeanQ 14 (gains (List.replicate 14 (5 : ℚ))))[13]? = some (F.num 0) := by
    rw [gains_replicate]; exact hmean
  have hk : (calculate_rsi 14 (List.replicate 14 (5 : ℚ)))[13]? =
      some (fsub (F.num 100) (fdiv (F.num 100) (fadd (F.num 1) (fdiv (F.num 0) (F.num 0))))) :=
    List.getElem?_zipWith_eq_some.mpr ⟨F.num 0, F.num 0, hg, hl, rfl⟩
  refine ⟨hl, hg, ?_, by decide⟩
  rw [hk]
  simp [fdiv, fadd, fsub, fneg]

/-- Witness for C6: a strictly rising two-sample series at window 2 has loss
average 0 and positive gain average, and the amended theorem yields RSI 100. -/
theorem C6_rsi_loss_zero_witness :
    (rollingMeanQ 2 (losses [(0 : ℚ), 1]))[1]? = some (F.num 0) ∧
      (calculate_rsi 2 [(0 : ℚ), 1])[1]? = some (F.num 100) := by
  have hlosses : losses [(0 : ℚ), 1] = [0, 0] := by norm_num [losses]
  have hgains : gains [(0 : ℚ), 1] = [0, 1] := by norm_num [gains]
  have hl : (rollingMeanQ 2 (losses [(0 : ℚ), 1]))[1]? = some (F.num 0) := by
    rw [hlosses, rollingMeanQ_getElem? 2 [0, 0] 1 (by norm_num)]
    norm_num [windowAt]
  have hg : (rollingMeanQ 2 (gains [(0 : ℚ), 1]))[1]? = some (F.num (1 / 2)) := by
    rw [hgains, rollingMeanQ_getElem? 2 [0, 1] 1 (by norm_num)]
    norm_num [windowAt]
  have h := C6_rsi_loss_zero 2 [(0 : ℚ), 1] 1 (1 / 2) hl hg
  rw [if_neg (by norm_num)] at h
  exact ⟨hl, h⟩

/-- Invariant of the `ewm` recursion: with carried numerator `n` and
denominator `d`, position `i` of `ewmAux c n d xs` is the weighted prefix sum
over `xs` plus the decayed carry, over the geometric weight sum plus the
decayed carry. -/
theorem ewmAux_getElem? (c : ℚ) :
    ∀ (xs : List ℚ) (n d : ℚ) (i : ℕ), i < xs.length →
      (ewmAux c n d xs)[i]? = some
        (((∑ j in Finset.range (i + 1), c ^ (i - j) * xs.getD j 0) + c ^ (i + 1) * n) /
          ((∑ j in Finset.range (i + 1), c ^ j) + c ^ (i + 1) * d)) := by
  intro xs
  induction xs with
  | nil => intro n d i hi; simp at hi
  | cons x rest ih =>
    intro n d i hi
    cases i with
    | zero =>
      have h0 : (ewmAux c n d (x :: rest))[0]? = some ((x + c * n) / (1 + c * d)) := by
        simp only [ewmAux, List.getElem?_cons_zero]
      rw [h0]
      congr 1
      rw [Finset.sum_range_one, Finset.sum_range_one]
      simp only [Nat.sub_self, pow_zero, List.getD_cons_zero, pow_one]
      ring_nf
    | succ i =>
      have hi' : i < rest.length := by simpa using hi
      have hstep : (ewmAux c n d (x :: rest))[i + 1]? =
          (ewmAux c (x + c * n) (1 + c * d) rest)[i]? := by
        simp only [ewmAux, List.getElem?_cons_succ]
      rw [hstep, ih (x + c * n) (1 + c * d) i hi']
      have hsum : (∑ j in Finset.range (i + 1 + 1), c ^ (i + 1 - j) * (x :: rest).getD j 0)
          = (∑ j in Finset.range (i + 1), c ^ (i - j) * rest.getD j 0) + c ^ (i + 1) * x := by
        rw [Finset.sum_range_succ' (fun j => c ^ (i + 1 - j) * (x :: rest).getD j 0)]
        simp only [Nat.succ_sub_succ, List.getD_cons_succ, List.getD_cons_zero, Nat.sub_zero]
      have hsum2 : (∑ j in Finset.range (i + 1 + 1), (c : ℚ) ^ j)
          = (∑ j in Finset.range (i + 1), c ^ j) + c ^ (i + 1) :=
        Finset.sum_range_succ _ _
      rw [hsum, hsum2]
      congr 1
      ring

/-- **C9 (amended)**.  `calculate_ema` is pandas' `adjust=True` exponentially
weighted mean (`span` must be at least 1 for pandas): the first output equals
the first sample, and position `i` is the `(1-α)^j`-weighted mean of the first
`i+1` samples with `α = 2/(w+1)` — not the plain recursion
`ema[i] = α·x[i] + (1-α)·ema[i-1]` the claim states. -/
theorem C9_ema_adjusted_weighted_mean (w : ℕ) (xs : List ℚ) (i : ℕ)
    (_hw : 1 ≤ w) (hi : i < xs.length) :
    (calculate_ema w xs)[i]? = some (emaAdjustedWeightedMean w xs i) ∧
      (calculate_ema w xs)[0]? = some (xs.getD 0 0) := by
  have h0 : 0 < xs.length := Nat.lt_of_le_of_lt (Nat.zero_le i) hi
  constructor
  · rw [calculate_ema, ewmAux_getElem? _ xs 0 0 i hi, emaAdjustedWeightedMean]
    simp only [mul_zero, add_zero]
  · rw [calculate_ema, ewmAux_getElem? _ xs 0 0 0 h0]
    rw [Finset.sum_range_one, Finset.sum_range_one]
    simp

/-- **C9 counterexample**.  For `w = 2` and the series `[0, 1]`, the code's
EMA at position 1 is `3/4` (the `adjust=True` weighted mean), while the
claim's plain recursion `α·x[1] + (1-α)·ema[0]` gives `2/3`. -/
theorem C9_ema_not_plain_recursion_counterexample :
    calculate_ema 2 [0, 1] = [0, 3 / 4] ∧
      (2 / ((2 : ℚ) + 1)) * 1 + (1 - 2 / ((2 : ℚ) + 1)) * 0 = 2 / 3 ∧
      (3 / 4 : ℚ) ≠ 2 / 3 := by
  refine ⟨?_, by norm_num, by norm_num⟩
  show ewmAux (1 - 2 / (2 + 1 : ℚ)) 0 0 [0, 1] = [0, 3 / 4]
  norm_num [ewmAux]

/-- Witness for C9: the amended theorem applied at `w = 2`, `xs = [0, 1]`,
`i = 1`, whose weighted mean evaluates to `3/4`. -/
theorem C9_ema_adjusted_weighted_mean_witness :
    (calculate_ema 2 [(0 : ℚ), 1])[1]? = some (emaAdjustedWeightedMean 2 [0, 1] 1) ∧
      emaAdjustedWeightedMean 2 [(0 : ℚ), 1] 1 = 3 / 4 := by
  refine ⟨(C9_ema_adjusted_weighted_mean 2 [0, 1] 1 (by norm_num) (by norm_num)).1, ?_⟩
  rw [emaAdjustedWeightedMean]
  norm_num [Finset.sum_range_succ, Finset.sum_range_zero]

/-- **C10**.  For every series of at least 2 bars whose highest high equals
its lowest low (zero price range), `calculate_metrics` does not fail: it
returns a metrics dict with `price_position` defined as the neutral 50; and
whenever the average volume is 0, `volume_ratio` is defined as 1. -/
theorem C10_metrics_degenerate_fallbacks (sq : ℚ → ℚ) (bars : List Bar)
    (h2 : 2 ≤ bars.length)
    (hr : listMaxQ (bars.map Bar.high) = listMinQ (bars.map Bar.low)) :
    (calculate_metrics sq bars).isSome = true ∧
      (calculate_metrics sq bars).map Metrics.price_position = some 50 ∧
      ((calculate_metrics sq bars).map Metrics.avg_volume = some 0 →
        (calculate_metrics sq bars).map Metrics.volumeRatio = some 1) := by
  have hlt : ¬ bars.length < 2 := not_lt.mpr h2
  rw [calculate_metrics, if_neg hlt]
  refine ⟨rfl, ?_, ?_⟩
  · simp [hr]
  · intro hav
    simp only [Option.map_some', Option.some.injEq] at hav
    simp [hav]

/-- Witness for C10: two flat zero-volume bars — metrics are produced,
`price_position` is 50, and `volume_ratio` is 1. -/
theorem C10_metrics_degenerate_fallbacks_witness :
    (calculate_metrics (fun _ => 0) [⟨5, 5, 5, 0⟩, ⟨5, 5, 5, 0⟩]).map
        Metrics.price_position = some 50 ∧
      (calculate_metrics (fun _ => 0) [⟨5, 5, 5, 0⟩, ⟨5, 5, 5, 0⟩]).map
        Metrics.volumeRatio = some 1 := by
  have h := C10_metrics_degenerate_fallbacks (fun _ => 0) [⟨5, 5, 5, 0⟩, ⟨5, 5, 5, 0⟩]
    (by norm_num) (by decide)
  refine ⟨h.2.1, h.2.2 ?_⟩
  norm_num [calculate_metrics]

/-- If any call site of the `try:` body raises, the whole body aborts with
that exception (the first raising site wins; the value is the same `()`). -/
theorem calcAllE_fail (sq : ℚ → ℚ) (fail : IndId → Bool) (data : List Bar)
    (i : IndId) (hi : fail i = true) : calcAllE sq fail data = .error () := by
  cases h1 : fail IndId.sma20
  case true => simp [calcAllE, chk, h1]
  case false =>
  cases h2 : fail IndId.sma50
  case true => simp [calcAllE, chk, h1, h2]
  case false =>
  cases h3 : fail IndId.ema12
  case true => simp [calcAllE, chk, h1, h2, h3]
  case false =>
  cases h4 : fail IndId.ema26
  case true => simp [calcAllE, chk, h1, h2, h3, h4]
  case false =>
  cases h5 : fail IndId.rsi
  case true => simp [calcAllE, chk, h1, h2, h3, h4, h5]
  case false =>
  cases h6 : fail IndId.macd
  case true => simp [calcAllE, chk, h1, h2, h3, h4, h5, h6]
  case false =>
  cases h7 : fail IndId.bb
  case true => simp [calcAllE, chk, h1, h2, h3, h4, h5, h6, h7]
  case false =>
  cases h8 : fail IndId.stoch
  case true => simp [calcAllE, chk, h1, h2, h3, h4, h5, h6, h7, h8]
  case false =>
  cases h9 : fail IndId.williams
  case true => simp [calcAllE, chk, h1, h2, h3, h4, h5, h6, h7, h8, h9]
  case false =>
  cases h10 : fail IndId.adx
  case true => simp [calcAllE, chk, h1, h2, h3, h4, h5, h6, h7, h8, h9, h10]
  case false =>
  cases h11 : fail IndId.suppRes
  case true => simp [calcAllE, chk, h1, h2, h3, h4, h5, h6, h7, h8, h9, h10, h11]
  case false =>
  cases i <;> simp_all

/-- **C3 (amended)**.  The whole of `calculate_all_indicators` sits in a
single `try/except`: if ANY indicator computation fails the function returns
the raw input frame with NO indicator columns at all (failure is not isolated
per indicator), and only when no indicator fails does the returned panel carry
all 17 indicator columns. -/
theorem C3_failure_aborts_or_full_panel (sq : ℚ → ℚ) (fail : IndId → Bool) (data : List Bar) :
    ((∃ i, fail i = true) → calculate_all_indicators sq fail data = ⟨data, []⟩) ∧
      ((∀ i, fail i = false) →
        ∀ name ∈ indicatorColNames,
          ((calculate_all_indicators sq fail data).cols.lookup name).isSome = true) := by
  constructor
  · rintro ⟨i, hi⟩
    rw [calculate_all_indicators, calcAllE_fail sq fail data i hi]
  · intro hall name hname
    rw [calculate_all_indicators]
    simp only [calcAllE, chk, hall, Bool.false_eq_true, if_false]
    simp only [indicatorColNames, List.mem_cons, List.not_mem_nil, or_false] at hname
    rcases hname with rfl | rfl | rfl | rfl | rfl | rfl | rfl | rfl | rfl | rfl | rfl | rfl |
      rfl | rfl | rfl | rfl | rfl <;> rfl

/-- **C3 counterexample**.  Injecting a failure into the RSI computation
alone makes `calculate_all_indicators` return the raw input frame: the
`sma_20` column (and every other indicator column) is missing, contradicting
the claim that other indicators are still computed. -/
theorem C3_rsi_failure_drops_all_columns_counterexample :
    (calculate_all_indicators (fun _ => 0) (fun i => decide (i = IndId.rsi))
        [⟨1, 1, 1, 1⟩]).cols.lookup "sma_20" = none ∧
      calculate_all_indicators (fun _ => 0) (fun i => decide (i = IndId.rsi))
        [⟨1, 1, 1, 1⟩] = ⟨[⟨1, 1, 1, 1⟩], []⟩ := by
  exact ⟨rfl, rfl⟩

/-- Witness for C3: a single failing ADX aborts the whole panel, while a run
without failures produces the `rsi` column. -/
theorem C3_failure_aborts_or_full_panel_witness :
    calculate_all_indicators (fun _ => 0) (fun i => decide (i = IndId.adx)) [⟨1, 2, 1, 1⟩] =
        ⟨[⟨1, 2, 1, 1⟩], []⟩ ∧
      ((calculate_all_indicators (fun _ => 0) (fun _ => false) [⟨1, 2, 1, 1⟩]).cols.lookup
          "rsi").isSome = true :=
  ⟨(C3_failure_aborts_or_full_panel (fun _ => 0) (fun i => decide (i = IndId.adx))
      [⟨1, 2, 1, 1⟩]).1 ⟨IndId.adx, rfl⟩,
    (C3_failure_aborts_or_full_panel (fun _ => 0) (fun _ => false) [⟨1, 2, 1, 1⟩]).2
      (fun _ => rfl) "rsi" (by decide)⟩

/-! ## Ranking infrastructure for C2/C7/C8 -/

/-- The symbols of the scores dict, in insertion order, are exactly the
requested symbols present in `comparison_data`. -/
theorem pairs_map_fst (symbols : List String) (cd : String → Option AssetData) :
    (symbols.filterMap fun s => (cd s).map fun a => (s, a)).map Prod.fst =
      symbols.filter fun s => (cd s).isSome := by
  induction symbols with
  | nil => rfl
  | cons s rest ih =>
    cases h : cd s with
    | none => simp [List.filterMap_cons, List.filter_cons, h, ih]
    | some a => simp [List.filterMap_cons, List.filter_cons, h, ih]

/-- Positional characterisation of the scored-entries list. -/
theorem mkEntries_getElem? (symbols : List String) (cd : String → Option AssetData) (i : ℕ) :
    (mkEntries symbols cd)[i]? =
      ((symbols.filterMap fun s => (cd s).map fun a => (s, a))[i]?).map
        fun p => ⟨i, p.1, scoreOf p.2.metricsResult p.2.summary, p.2⟩ := by
  cases hp : (symbols.filterMap fun s => (cd s).map fun a => (s, a))[i]? with
  | none => simp [mkEntries, List.enum, List.getElem?_map, List.getElem?_enumFrom, hp]
  | some p => simp [mkEntries, List.enum, List.getElem?_map, List.getElem?_enumFrom, hp]

/-- The insertion positions recorded in the scored entries are distinct. -/
theorem mkEntries_idx_nodup (symbols : List String) (cd : String → Option AssetData) :
    ((mkEntries symbols cd).map ScoredAsset.idx).Nodup := by
  rw [mkEntries, List.map_map]
  exact List.nodup_enum_map_fst _

/-- `ranked` is a permutation of the scores dict. -/
theorem rankedList_perm (symbols : List String) (cd : String → Option AssetData) :
    (rankedList symbols cd).Perm (mkEntries symbols cd) :=
  List.perm_insertionSort _ _

/-- `ranked` is sorted by "higher score first, ties by insertion order". -/
theorem rankedList_sorted (symbols : List String) (cd : String → Option AssetData) :
    List.Sorted lexLE (rankedList symbols cd) :=
  List.sorted_insertionSort _ _

/-- The insertion positions are still distinct after ranking. -/
theorem rankedList_idx_nodup (symbols : List String) (cd : String → Option AssetData) :
    ((rankedList symbols cd).map ScoredAsset.idx).Nodup :=
  (((rankedList_perm symbols cd).map ScoredAsset.idx).nodup_iff).mpr
    (mkEntries_idx_nodup symbols cd)

/-- Any two positions of `ranked` are `lexLE`-related. -/
theorem rankedList_lexLE {symbols : List String} {cd : String → Option AssetData}
    {k l : ℕ} {ek el : ScoredAsset} (hkl : k < l)
    (hk : (rankedList symbols cd)[k]? = some ek)
    (hl : (rankedList symbols cd)[l]? = some el) : lexLE ek el := by
  obtain ⟨hk', hek⟩ := List.getElem?_eq_some_iff.mp hk
  obtain ⟨hl', hel⟩ := List.getElem?_eq_some_iff.mp hl
  have h := List.pairwise_iff_get.mp (rankedList_sorted symbols cd) ⟨k, hk'⟩ ⟨l, hl'⟩ hkl
  simpa [List.get_eq_getElem, hek, hel] using h

/-- Entries at distinct positions of `ranked` carry distinct insertion
positions. -/
theorem rankedList_idx_ne {symbols : List String} {cd : String → Option AssetData}
    {k l : ℕ} {ek el : ScoredAsset} (hkl : k < l)
    (hk : (rankedList symbols cd)[k]? = some ek)
    (hl : (rankedList symbols cd)[l]? = some el) : ek.idx ≠ el.idx := by
  have h1 : ((rankedList symbols cd).map ScoredAsset.idx)[k]? = some ek.idx := by
    rw [List.getElem?_map, hk]; rfl
  have h2 : ((rankedList symbols cd).map ScoredAsset.idx)[l]? = some el.idx := by
    rw [List.getElem?_map, hl]; rfl
  intro he
  have hlen : l < ((rankedList symbols cd).map ScoredAsset.idx).length :=
    (List.getElem?_eq_some_iff.mp h2).1
  exact List.nodup_iff_getElem?_ne_getElem?.mp (rankedList_idx_nodup symbols cd)
    k l hkl hlen (by rw [h1, h2, he])

/-- A scored entry's symbol sits at its insertion position of the filtered
symbol list. -/
theorem mkEntries_sym_at {symbols : List String} {cd : String → Option AssetData}
    {e : ScoredAsset} (he : e ∈ mkEntries symbols cd) :
    (symbols.filter fun s => (cd s).isSome)[e.idx]? = some e.sym := by
  obtain ⟨i, hi⟩ := List.mem_iff_getElem?.mp he
  rw [mkEntries_getElem?] at hi
  cases hp : (symbols.filterMap fun s => (cd s).map fun a => (s, a))[i]? with
  | none => rw [hp] at hi; exact Option.noConfusion hi
  | some p =>
    rw [hp] at hi
    injection hi with hi
    have hmap : ((symbols.filterMap fun s => (cd s).map fun a => (s, a)).map Prod.fst)[i]? =
        some p.1 := by
      rw [List.getElem?_map, hp]; rfl
    rw [pairs_map_fst] at hmap
    rw [← hi]
    exact hmap

/-- In a duplicate-free list, earlier elements have smaller `indexOf`. -/
theorem nodup_pairwise_indexOf {l : List String} (h : l.Nodup) :
    l.Pairwise fun a b => l.indexOf a < l.indexOf b := by
  induction l with
  | nil => exact List.Pairwise.nil
  | cons x xs ih =>
    rw [List.nodup_cons] at h
    refine List.Pairwise.cons ?_ ?_
    · intro b hb
      have hbx : x ≠ b := fun hxb => h.1 (hxb ▸ hb)
      rw [List.indexOf_cons_self, List.indexOf_cons_ne xs hbx]
      exact Nat.succ_pos _
    · refine (ih h.2).imp_of_mem ?_
      intro a b ha hb hlt
      have hax : x ≠ a := fun hxa => h.1 (hxa ▸ ha)
      have hbx : x ≠ b := fun hxb => h.1 (hxb ▸ hb)
      rw [List.indexOf_cons_ne xs hax, List.indexOf_cons_ne xs hbx]
      exact Nat.succ_lt_succ hlt

/-- Positions of the filtered symbol list respect the original input order. -/
theorem filter_indexOf_lt (symbols : List String) (p : String → Bool)
    (hnd : symbols.Nodup) {i j : ℕ} {a b : String} (hij : i < j)
    (ha : (symbols.filter p)[i]? = some a) (hb : (symbols.filter p)[j]? = some b) :
    symbols.indexOf a < symbols.indexOf b := by
  have hpw : (symbols.filter p).Pairwise fun a b => symbols.indexOf a < symbols.indexOf b :=
    (nodup_pairwise_indexOf hnd).sublist (List.filter_sublist symbols)
  obtain ⟨hi', hai⟩ := List.getElem?_eq_some_iff.mp ha
  obtain ⟨hj', hbj⟩ := List.getElem?_eq_some_iff.mp hb
  have h := List.pairwise_iff_get.mp hpw ⟨i, hi'⟩ ⟨j, hj'⟩ hij
  simpa [List.get_eq_getElem, hai, hbj] using h

/-- Positional characterisation of the rankings list. -/
theorem mkRankings_getElem? (rl : List ScoredAsset) (k : ℕ) :
    (mkRankings rl)[k]? = (rl[k]?).map fun e =>
      { symbol := e.sym
        rank := k + 1
        score := e.score
        rationale :=
          match e.data.metricsResult with
          | some m => .full e.score m.total_return m.volatility m.sharpeRatio
              (match e.data.summary with
               | some s => s.trend_signal
               | none => "Neutral")
          | none => .limited e.score } := by
  cases h : rl[k]? with
  | none => simp [mkRankings, List.enum, List.getElem?_map, List.getElem?_enumFrom, h]
  | some e => simp [mkRankings, List.enum, List.getElem?_map, List.getElem?_enumFrom, h]

/-- The `(symbol, score)` projection of the rankings equals that of `ranked`. -/
theorem mkRankings_map_sym_score (rl : List ScoredAsset) :
    (mkRankings rl).map (fun e => (e.symbol, e.score)) = rl.map fun e => (e.sym, e.score) := by
  rw [mkRankings, List.map_map]
  have h : ((fun e : RankEntry => (e.symbol, e.score)) ∘ fun p : ℕ × ScoredAsset =>
      ({ symbol := p.2.sym
         rank := p.1 + 1
         score := p.2.score
         rationale :=
           match p.2.data.metricsResult with
           | some m => .full p.2.score m.total_return m.volatility m.sharpeRatio
               (match p.2.data.summary with
                | some s => s.trend_signal
                | none => "Neutral")
           | none => .limited p.2.score } : RankEntry)) =
      (fun e : ScoredAsset => (e.sym, e.score)) ∘ Prod.snd := rfl
  rw [h, ← List.map_map, List.enum_map_snd]

/-- The rankings list has one entry per ranked asset. -/
theorem mkRankings_length (rl : List ScoredAsset) : (mkRankings rl).length = rl.length := by
  simp [mkRankings]

/-- **C2 (amended)**.  Whenever the top-scored asset has usable metrics, the
emitted rankings are exactly the scored assets (as `(symbol, score)` pairs, a
permutation of the scores dict), sorted by descending clamped score with ties
broken by original input order, rank equal to the 1-based position, and
`best_choice` the rank-1 symbol.  (When the top-scored asset's metrics are
unusable the source instead returns the degraded `_get_default_analysis` —
see the counterexample.) -/
theorem C2_rankings_sorted_stable (symbols : List String) (cd : String → Option AssetData)
    (hnd : symbols.Nodup) (_h2 : 2 ≤ (scoredList symbols cd).length)
    (hb : bestHasMetrics symbols cd = true) :
    ((generate_fallback_comparison symbols cd).rankings.map
        (fun e => (e.symbol, e.score))).Perm (scoredList symbols cd) ∧
      (∀ (k : ℕ) (e : RankEntry),
        (generate_fallback_comparison symbols cd).rankings[k]? = some e →
        e.rank = k + 1) ∧
      (∀ (k l : ℕ) (ek el : RankEntry), k < l →
        (generate_fallback_comparison symbols cd).rankings[k]? = some ek →
        (generate_fallback_comparison symbols cd).rankings[l]? = some el →
        el.score ≤ ek.score ∧
          (ek.score = el.score → symbols.indexOf ek.symbol < symbols.indexOf el.symbol)) ∧
      (∀ e : RankEntry, (generate_fallback_comparison symbols cd).rankings[0]? = some e →
        (generate_fallback_comparison symbols cd).best_choice = e.symbol) := by
  obtain ⟨b, rest, hbr⟩ : ∃ b rest, rankedList symbols cd = b :: rest := by
    cases h : rankedList symbols cd with
    | nil => rw [bestHasMetrics, h] at hb; exact absurd hb (by simp)
    | cons b r => exact ⟨b, r, rfl⟩
  obtain ⟨bm, hbm⟩ : ∃ bm, b.data.metricsResult = some bm := by
    rw [bestHasMetrics, hbr] at hb
    exact Option.isSome_iff_exists.mp hb
  have hgen : generate_fallback_comparison symbols cd =
      { best_choice := b.sym
        best_choice_reasons := mkReasons b rest bm
        rankings := mkRankings (b :: rest) } := by
    simp only [generate_fallback_comparison, hbr, hbm]
  refine ⟨?_, ?_, ?_, ?_⟩
  · rw [hgen]
    show ((mkRankings (b :: rest)).map (fun e => (e.symbol, e.score))).Perm
      (scoredList symbols cd)
    rw [mkRankings_map_sym_score, ← hbr]
    exact (rankedList_perm symbols cd).map _
  · intro k e he
    rw [hgen] at he
    have he' : (mkRankings (b :: rest))[k]? = some e := he
    rw [mkRankings_getElem?] at he'
    cases h : (b :: rest)[k]? with
    | none => rw [h] at he'; exact Option.noConfusion he'
    | some e0 =>
      rw [h] at he'
      injection he' with he'
      rw [← he']
  · intro k l ek el hkl hk hl
    rw [hgen] at hk hl
    have hk' : (mkRankings (b :: rest))[k]? = some ek := hk
    have hl' : (mkRankings (b :: rest))[l]? = some el := hl
    rw [mkRankings_getElem?] at hk' hl'
    cases hek : (b :: rest)[k]? with
    | none => rw [hek] at hk'; exact absurd hk' (by simp)
    | some ek0 =>
    cases hel : (b :: rest)[l]? with
    | none => rw [hel] at hl'; exact absurd hl' (by simp)
    | some el0 =>
    rw [hek] at hk'
    rw [hel] at hl'
    injection hk' with hk'
    injection hl' with hl'
    have hkr : (rankedList symbols cd)[k]? = some ek0 := by rw [hbr]; exact hek
    have hlr : (rankedList symbols cd)[l]? = some el0 := by rw [hbr]; exact hel
    have hlex := rankedList_lexLE hkl hkr hlr
    have hscorek : ek.score = ek0.score := by rw [← hk']
    have hscorel : el.score = el0.score := by rw [← hl']
    have hsymk : ek.symbol = ek0.sym := by rw [← hk']
    have hsyml : el.symbol = el0.sym := by rw [← hl']
    constructor
    · rcases hlex with h | ⟨h, -⟩
      · rw [hscorek, hscorel]; exact le_of_lt h
      · rw [hscorek, hscorel, h]
    · intro hseq
      have hse : ek0.score = el0.score := by rw [← hscorek, ← hscorel, hseq]
      have hidxle : ek0.idx ≤ el0.idx := by
        rcases hlex with h | ⟨-, h⟩
        · exact absurd (hse ▸ h) (lt_irrefl _)
        · exact h
      have hidxne := rankedList_idx_ne hkl hkr hlr
      have hidxlt : ek0.idx < el0.idx := lt_of_le_of_ne hidxle hidxne
      have hmemk : ek0 ∈ mkEntries symbols cd :=
        (rankedList_perm symbols cd).mem_iff.mp (List.mem_iff_getElem?.mpr ⟨k, hkr⟩)
      have hmeml : el0 ∈ mkEntries symbols cd :=
        (rankedList_perm symbols cd).mem_iff.mp (List.mem_iff_getElem?.mpr ⟨l, hlr⟩)
      have hfk := mkEntries_sym_at hmemk
      have hfl := mkEntries_sym_at hmeml
      rw [hsymk, hsyml]
      exact filter_indexOf_lt symbols _ hnd hidxlt hfk hfl
  · intro e he
    rw [hgen] at he ⊢
    have he' : (mkRankings (b :: rest))[0]? = some e := he
    rw [mkRankings_getElem?] at he'
    rw [List.getElem?_cons_zero] at he'
    injection he' with he'
    show b.sym = e.symbol
    rw [← he']

/-- The C2-scenario score of asset "B" is 43. -/
theorem scoreOf_mLoss : scoreOf (some mLoss) (some sLoss) = 43 := by
  have h1 : inStr "Strong Uptrend" "Sideways" = false := by decide
  have h2 : inStr "Uptrend" "Sideways" = false := by decide
  have h3 : inStr "Downtrend" "Sideways" = false := by decide
  have h4 : ¬ ("Bearish" : String) = "Bullish" := by decide
  norm_num [scoreOf, mLoss, sLoss, fgt, flt, h1, h2, h3, h4]

/-- The score of an asset with the winning metrics and no summary is 80. -/
theorem scoreOf_mGain : scoreOf (some mGain) none = 80 := by
  have h5 : ¬ (none : Option String) = some "Bullish" := by simp
  have h6 : ¬ (none : Option String) = some "Bearish" := by simp
  norm_num [scoreOf, mGain, fgt, flt, inStr, containsL, startsWithL, h5, h6]

/-- Scores dict of the C2 scenario. -/
theorem mkEntries_cdC2 : mkEntries ["B", "A"] cdC2 = [eB2, eA2] := by
  simp [mkEntries, cdC2, scoreOf_mLoss, List.enum, List.enumFrom, eB2, eA2]
  rfl

/-- Ranked list of the C2 scenario: "A" (score 50, no metrics) first. -/
theorem rankedList_cdC2 : rankedList ["B", "A"] cdC2 = [eA2, eB2] := by
  rw [rankedList, mkEntries_cdC2]
  norm_num [List.insertionSort, List.orderedInsert, lexLE, eB2, eA2]

/-- The C2 scenario hits the degraded path: the top-scored asset "A" has no
usable metrics, so `_get_default_analysis` is returned. -/
theorem gen_cdC2 : generate_fallback_comparison ["B", "A"] cdC2 =
    default_analysis ["B", "A"] := by
  rw [generate_fallback_comparison, rankedList_cdC2]
  rfl

/-- **C2 counterexample**.  2 assets with computed scores ("B" scores 43,
"A" scores 50): the emitted rankings list "B" FIRST with displayed score 50 —
not sorted by descending clamped score (43 < 50), and `best_choice` is "B",
not the top-scored asset "A": the degraded path breaks every part of the
claim. -/
theorem C2_degraded_path_counterexample :
    scoreOf (some mLoss) (some sLoss) = 43 ∧ scoreOf none none = 50 ∧
      cdC2 "B" = some ⟨some mLoss, some sLoss⟩ ∧ cdC2 "A" = some ⟨none, none⟩ ∧
      (generate_fallback_comparison ["B", "A"] cdC2).rankings.map
        (fun e => (e.symbol, e.score)) = [("B", 50), ("A", 50)] ∧
      (generate_fallback_comparison ["B", "A"] cdC2).best_choice = "B" ∧
      ¬ ((50 : ℚ) ≤ 43) := by
  refine ⟨scoreOf_mLoss, rfl, rfl, rfl, ?_, ?_, by norm_num⟩
  · rw [gen_cdC2]; rfl
  · rw [gen_cdC2]; rfl

/-- Scores dict of the C8 scenario (both assets score 80). -/
theorem mkEntries_cdC8 : mkEntries ["A", "B"] cdC8 = [eA8, eB8] := by
  simp [mkEntries, cdC8, scoreOf_mGain, List.enum, List.enumFrom, eA8, eB8]

/-- Ranked list of the C8 scenario: equal scores, input order preserved. -/
theorem rankedList_cdC8 : rankedList ["A", "B"] cdC8 = [eA8, eB8] := by
  rw [rankedList, mkEntries_cdC8]
  norm_num [List.insertionSort, List.orderedInsert, lexLE, eA8, eB8]

/-- The C8 scenario's top asset has usable metrics. -/
theorem bestHasMetrics_cdC8 : bestHasMetrics ["A", "B"] cdC8 = true := by
  rw [bestHasMetrics, rankedList_cdC8]
  rfl

/-- Witness for C2: the amended theorem applied to two assets with usable
metrics and equal scores; the emitted pairs are the scored pairs in input
order and `best_choice` is the rank-1 symbol "A". -/
theorem C2_rankings_sorted_stable_witness :
    ((generate_fallback_comparison ["A", "B"] cdC8).rankings.map
        (fun e => (e.symbol, e.score))).Perm (scoredList ["A", "B"] cdC8) ∧
      (∀ e : RankEntry,
        (generate_fallback_comparison ["A", "B"] cdC8).rankings[0]? = some e →
        (generate_fallback_comparison ["A", "B"] cdC8).best_choice = e.symbol) ∧
      scoredList ["A", "B"] cdC8 = [("A", 80), ("B", 80)] := by
  have hlen : 2 ≤ (scoredList ["A", "B"] cdC8).length := by
    rw [scoredList, mkEntries_cdC8]
    simp
  have h := C2_rankings_sorted_stable ["A", "B"] cdC8 (by decide) hlen bestHasMetrics_cdC8
  refine ⟨h.1, h.2.2.2, ?_⟩
  rw [scoredList, mkEntries_cdC8]
  simp [eA8, eB8]

/-- **C7 (amended)**.  The rankings length equals the number of requested
symbols PRESENT in `comparison_data` (data fetched), not the number with
usable metrics: symbols whose `calculate_metrics` returned `None` still
appear (with score 50).  On the degraded path (top-scored asset without
usable metrics, including an empty ranked list) the rankings instead list
ALL requested symbols. -/
theorem C7_rankings_length (symbols : List String) (cd : String → Option AssetData) :
    (bestHasMetrics symbols cd = true →
      (generate_fallback_comparison symbols cd).rankings.length =
        (symbols.filter fun s => (cd s).isSome).length) ∧
      (bestHasMetrics symbols cd = false →
        (generate_fallback_comparison symbols cd).rankings.length = symbols.length) := by
  constructor
  · intro hb
    obtain ⟨b, rest, hbr⟩ : ∃ b rest, rankedList symbols cd = b :: rest := by
      cases h : rankedList symbols cd with
      | nil => rw [bestHasMetrics, h] at hb; exact absurd hb (by simp)
      | cons b r => exact ⟨b, r, rfl⟩
    obtain ⟨bm, hbm⟩ : ∃ bm, b.data.metricsResult = some bm := by
      rw [bestHasMetrics, hbr] at hb
      exact Option.isSome_iff_exists.mp hb
    have hgen : generate_fallback_comparison symbols cd =
        { best_choice := b.sym
          best_choice_reasons := mkReasons b rest bm
          rankings := mkRankings (b :: rest) } := by
      simp only [generate_fallback_comparison, hbr, hbm]
    rw [hgen]
    show (mkRankings (b :: rest)).length = _
    rw [mkRankings_length, ← hbr, (rankedList_perm symbols cd).length_eq]
    rw [mkEntries, List.length_map, List.enum_length]
    rw [← List.length_map (symbols.filterMap fun s => (cd s).map fun a => (s, a)) Prod.fst,
      pairs_map_fst]
  · intro hb
    cases h : rankedList symbols cd with
    | nil =>
      simp only [generate_fallback_comparison, h]
      simp [default_analysis]
    | cons b r =>
      simp only [bestHasMetrics, h] at hb
      have hnone : b.data.metricsResult = none := by
        cases hc : b.data.metricsResult with
        | none => rfl
        | some m => rw [hc] at hb; exact absurd hb (by simp)
      simp only [generate_fallback_comparison, h, hnone]
      simp [default_analysis]

/-- Scores dict of the C7 scenario: "A" (no usable metrics) scores 50,
"B" scores 80. -/
theorem mkEntries_cdC7 : mkEntries ["A", "B"] cdC7 = [eA7, eB7] := by
  simp [mkEntries, cdC7, scoreOf_mGain, List.enum, List.enumFrom, eA7, eB7]
  rfl

/-- Ranked list of the C7 scenario: "B" (80) above "A" (50). -/
theorem rankedList_cdC7 : rankedList ["A", "B"] cdC7 = [eB7, eA7] := by
  rw [rankedList, mkEntries_cdC7]
  norm_num [List.insertionSort, List.orderedInsert, lexLE, eA7, eB7]

/-- The C7 scenario's top asset "B" has usable metrics. -/
theorem bestHasMetrics_cdC7 : bestHasMetrics ["A", "B"] cdC7 = true := by
  rw [bestHasMetrics, rankedList_cdC7]
  rfl

/-- **C7 counterexample**.  "A"'s data is present but its metrics computation
returns `None`; "B" has usable metrics.  The emitted rankings have 2 entries
(with "A" ranked at score 50), while only 1 asset has usable data — the
claimed equality fails. -/
theorem C7_unusable_asset_still_ranked_counterexample :
    (generate_fallback_comparison ["A", "B"] cdC7).rankings.length = 2 ∧
      ((["A", "B"]).filterMap fun s => (cdC7 s).bind fun a => a.metricsResult).length = 1 ∧
      (2 : ℕ) ≠ 1 := by
  refine ⟨?_, by simp [cdC7], by norm_num⟩
  have hgen : generate_fallback_comparison ["A", "B"] cdC7 =
      { best_choice := eB7.sym
        best_choice_reasons := mkReasons eB7 [eA7] mGain
        rankings := mkRankings [eB7, eA7] } := by
    simp only [generate_fallback_comparison, rankedList_cdC7]
    rfl
  rw [hgen]
  rfl

/-- Witness for C7: the amended theorem applied to the C7 scenario — the
rankings length equals the number of symbols with fetched data (2). -/
theorem C7_rankings_length_witness :
    (generate_fallback_comparison ["A", "B"] cdC7).rankings.length =
        ((["A", "B"]).filter fun s => (cdC7 s).isSome).length ∧
      ((["A", "B"]).filter fun s => (cdC7 s).isSome).length = 2 :=
  ⟨(C7_rankings_length ["A", "B"] cdC7).1 bestHasMetrics_cdC7, by simp [cdC7]⟩

/-- **C8 (amended)**.  When at least 2 ranked assets exist and both the best
and the rank-2 asset have usable metrics, the reasons list contains a
comparative reason (against the rank-2 asset) IF AND ONLY IF the best asset
strictly outperforms it in total return or has strictly lower volatility;
when it wins on neither (e.g. identical metrics), no comparative reason is
produced. -/
theorem C8_comparative_reason_iff (symbols : List String) (cd : String → Option AssetData)
    (b s : ScoredAsset) (rest : List ScoredAsset) (bm sm : Metrics)
    (hbr : rankedList symbols cd = b :: s :: rest)
    (hbm : b.data.metricsResult = some bm)
    (hsm : s.data.metricsResult = some sm) :
    ((generate_fallback_comparison symbols cd).best_choice_reasons.any isComparative = true) ↔
      (sm.total_return < bm.total_return ∨ flt bm.volatility sm.volatility = true) := by
  have hgen : generate_fallback_comparison symbols cd =
      { best_choice := b.sym
        best_choice_reasons := mkReasons b (s :: rest) bm
        rankings := mkRankings (b :: s :: rest) } := by
    simp only [generate_fallback_comparison, hbr, hbm]
  rw [hgen]
  show ((mkReasons b (s :: rest) bm).any isComparative = true) ↔ _
  rw [mkReasons]
  have hr1 : isComparative (Reason.highestScore b.score) = false := rfl
  have hr2 : isComparative (if 0 < bm.total_return then Reason.superiorReturn bm.total_return
      else Reason.bestRiskAdjusted bm.sharpeRatio) = false := by
    split <;> rfl
  have hr3 : isComparative (if fgt bm.sharpeRatio (F.num (1 / 2)) then
        Reason.excellentRiskReward bm.sharpeRatio bm.max_drawdown
      else Reason.favorableTechnical (trendOfD b.data.summary "stable trend")
        (rsiOfD b.data.summary)) = false := by
    split <;> rfl
  simp only [hsm, List.cons_append, List.nil_append, List.take_succ_cons, List.any_cons,
    hr1, hr2, hr3, Bool.false_or]
  by_cases h1 : sm.total_return < bm.total_return
  · rw [if_pos h1]
    simp [isComparative, h1]
  · rw [if_neg h1]
    by_cases h2 : flt bm.volatility sm.volatility = true
    · rw [if_pos h2]
      simp [isComparative, h1, h2]
    · rw [if_neg h2]
      simp [isComparative, h1, h2]

/-- **C8 counterexample**.  Two qualifying assets with IDENTICAL usable
metrics: the best neither outperforms the rank-2 asset in return nor has
lower volatility, and the emitted `best_choice_reasons` contain NO
comparative reason. -/
theorem C8_no_comparative_reason_counterexample :
    (cdC8 "A").bind (fun a => a.metricsResult) = some mGain ∧
      (cdC8 "B").bind (fun a => a.metricsResult) = some mGain ∧
      (generate_fallback_comparison ["A", "B"] cdC8).best_choice_reasons.any isComparative
        = false := by
  refine ⟨rfl, rfl, ?_⟩
  have hgen : generate_fallback_comparison ["A", "B"] cdC8 =
      { best_choice := eA8.sym
        best_choice_reasons := mkReasons eA8 [eB8] mGain
        rankings := mkRankings [eA8, eB8] } := by
    simp only [generate_fallback_comparison, rankedList_cdC8]
    rfl
  rw [hgen]
  show (mkReasons eA8 [eB8] mGain).any isComparative = false
  rw [mkReasons]
  norm_num [eA8, eB8, mGain, isComparative, fgt, flt, trendOfD, rsiOfD]

/-- Scores dict of the C8-witness scenario. -/
theorem mkEntries_cdC8w : mkEntries ["A", "B"] cdC8w = [eA8w, eB8w] := by
  simp [mkEntries, cdC8w, scoreOf_mGain, scoreOf_mLoss, List.enum, List.enumFrom, eA8w, eB8w]

/-- Ranked list of the C8-witness scenario: "A" (80) above "B" (43). -/
theorem rankedList_cdC8w : rankedList ["A", "B"] cdC8w = [eA8w, eB8w] := by
  rw [rankedList, mkEntries_cdC8w]
  norm_num [List.insertionSort, List.orderedInsert, lexLE, eA8w, eB8w]

/-- Witness for C8: when the best asset strictly outperforms the rank-2
asset in total return, a comparative reason IS produced. -/
theorem C8_comparative_reason_iff_witness :
    (generate_fallback_comparison ["A", "B"] cdC8w).best_choice_reasons.any isComparative
      = true := by
  have h := C8_comparative_reason_iff ["A", "B"] cdC8w eA8w eB8w [] mGain mLoss
    rankedList_cdC8w rfl rfl
  exact h.mpr (Or.inl (by norm_num [mGain, mLoss]))
